import Mathlib

/-!
Shallow embedding of the per-frame simulation core of `src/components/GameCanvas.tsx`
(the richer simulation variant of the repository, the one every claim cites).

Modelling conventions:
* JS numbers used for kinematics are embedded as `ℚ` (every kinematic constant in the
  source is an exact decimal); hit points and the score, which only ever hold integers,
  are `Int`.
* The `Rat` field operations of the ambient library are `irreducible`, which blocks
  kernel evaluation of concrete runs, so the embedding routes all rational arithmetic
  through the transparent wrappers `qadd`, `qsub`, `qmul`, `qhalf` below; the lemmas
  `qadd_eq`, `qsub_eq`, `qmul_eq`, `qhalf_eq` prove them equal to `+`, `-`, `*`, `/ 2`,
  and decimal constants of the source are written `mkRat` fractions (`0.6 = mkRat 6 10`).
* `Math.random()` is embedded as an oracle stream `Oracle.rand : Nat → ℚ` together with
  an index (`rngIx`) counting the draws made so far, `Math.sin` as `Oracle.sin`, and the
  `Math.cos a / Math.sin a` pair for `a = Math.atan2 dy dx` (boss aiming) as `Oracle.dir`.
* The `id` string of an entity is omitted: the update logic of the source never reads it
  (it is only used as a render key).
* `Array.prototype.forEach` does not visit elements pushed during the traversal, so
  entities pushed by the entity-update loop are accumulated separately and appended
  after the loop, exactly as the source's loop semantics dictate.  During the collision
  phase the only pushed entities are particles; they are accumulated in a `parts` field
  and appended before the end-of-tick purge.  (Particles never satisfy the
  `target.type === 'enemy'` test of the inner bullet loop, so this is the exact
  behaviour of the source's snapshot-forEach.)
-/

namespace GunGame

/-- Transparent addition on `ℚ` (`Rat.add` itself is irreducible). -/
def qadd (a b : ℚ) : ℚ := mkRat (a.num * b.den + b.num * a.den) (a.den * b.den)

/-- Transparent subtraction on `ℚ`. -/
def qsub (a b : ℚ) : ℚ := mkRat (a.num * b.den - b.num * a.den) (a.den * b.den)

/-- Transparent multiplication on `ℚ`. -/
def qmul (a b : ℚ) : ℚ := mkRat (a.num * b.num) (a.den * b.den)

/-- Transparent halving on `ℚ` (the only division the source performs is by 2). -/
def qhalf (a : ℚ) : ℚ := mkRat a.num (a.den * 2)

theorem qadd_eq (a b : ℚ) : qadd a b = a + b := (Rat.add_def' a b).symm

theorem qsub_eq (a b : ℚ) : qsub a b = a - b := (Rat.sub_def' a b).symm

theorem qmul_eq (a b : ℚ) : qmul a b = a * b := (Rat.mul_eq_mkRat a b).symm

theorem qhalf_eq (a : ℚ) : qhalf a = a / 2 := by
  rw [qhalf, Rat.mkRat_eq_div]
  push_cast
  rw [← div_div, Rat.num_div_den]

/-- `Math` functions the source calls, supplied as an oracle so the embedding stays
executable and the theorems quantify over every possible sequence of draws. -/
structure Oracle where
  rand : Nat → ℚ
  sin : ℚ → ℚ
  dir : ℚ → ℚ → ℚ × ℚ

inductive EType where
  | player | enemy | bullet | particle | platform | powerup | boss_projectile
deriving DecidableEq

inductive EnemyType where
  | runner | drone | jumper | boss
deriving DecidableEq

inductive WeaponType where
  | rifle | spread | laser | flame
deriving DecidableEq

structure V2 where
  x : ℚ
  y : ℚ
deriving DecidableEq

structure Size where
  width : ℚ
  height : ℚ
deriving DecidableEq

/-- The universal entity record of `types.ts`. -/
structure Entity where
  type : EType
  subtype : Option EnemyType := none
  weaponType : Option WeaponType := none
  pos : V2
  vel : V2
  size : Size
  color : String
  hp : Int
  maxHp : Int
  markedForDeletion : Bool
  direction : Int
  isGrounded : Bool := false
  ttl : Option Nat := none
  attackTimer : Option Nat := none
  bossPhase : Option Nat := none
  penetration : Option Nat := none
deriving DecidableEq

structure Input where
  left : Bool
  right : Bool
  up : Bool
  down : Bool
  jump : Bool
  fire : Bool
deriving DecidableEq

/-- `GRAVITY = 0.6`. -/
def GRAVITY : ℚ := mkRat 6 10

/-- `FRICTION = 0.8`. -/
def FRICTION : ℚ := mkRat 8 10

/-- `PLAYER_SPEED = 6`. -/
def PLAYER_SPEED : ℚ := 6

/-- `BOSS_SPAWN_SCORE = 1500`. -/
def BOSS_SPAWN_SCORE : Int := 1500

structure WeaponStats where
  rate : Nat
  speed : ℚ
  color : String
  size : Size

/-- The `WEAPONS` balance table. -/
def WEAPONS : WeaponType → WeaponStats
  | .rifle => ⟨10, 12, "#facc15", ⟨8, 4⟩⟩
  | .spread => ⟨20, 10, "#ef4444", ⟨10, 10⟩⟩
  | .laser => ⟨25, 20, "#3b82f6", ⟨30, 4⟩⟩
  | .flame => ⟨4, 7, "#f97316", ⟨6, 6⟩⟩

/-- AABB overlap test, `isColliding` of the source. -/
def isColliding (r1 r2 : Entity) : Bool :=
  decide (r1.pos.x < qadd r2.pos.x r2.size.width) &&
  decide (qadd r1.pos.x r1.size.width > r2.pos.x) &&
  decide (r1.pos.y < qadd r2.pos.y r2.size.height) &&
  decide (qadd r1.pos.y r1.size.height > r2.pos.y)

/-- `spawnParticle`: consumes two random draws (vel.x, vel.y). -/
def spawnParticle (o : Oracle) (n : Nat) (x y : ℚ) (color : String) : Entity × Nat :=
  ({ type := .particle, pos := ⟨x, y⟩,
     vel := ⟨qmul (qsub (o.rand n) (mkRat 1 2)) 6, qmul (qsub (o.rand (n + 1)) (mkRat 1 2)) 6⟩,
     size := ⟨4, 4⟩, color := color, hp := 1, maxHp := 1,
     markedForDeletion := false, direction := 1, ttl := some 20 }, n + 2)

/-- A burst of `k` particles at a fixed spot (the `for` loops around `spawnParticle`). -/
def particleBurst (o : Oracle) (x y : ℚ) (color : String) : Nat → Nat → List Entity × Nat
  | 0, n => ([], n)
  | k + 1, n =>
    let (p, n1) := spawnParticle o n x y color
    let (ps, n2) := particleBurst o x y color k n1
    (p :: ps, n2)

/-- The 50-particle boss-death burst: each particle draws its own position inside the
boss's box before `spawnParticle` draws its velocity. -/
def bossDeathBurst (o : Oracle) (t : Entity) : Nat → Nat → List Entity × Nat
  | 0, n => ([], n)
  | k + 1, n =>
    let x := qadd t.pos.x (qmul (o.rand n) t.size.width)
    let y := qadd t.pos.y (qmul (o.rand (n + 1)) t.size.height)
    let (p, n1) := spawnParticle o (n + 2) x y "#ef4444"
    let (ps, n2) := bossDeathBurst o t k n1
    (p :: ps, n2)

/-- `spawnPowerup`: one draw picks the weapon from `['spread','laser','flame']`. -/
def spawnPowerup (o : Oracle) (n : Nat) (canvasW : ℚ) : Entity × Nat :=
  let ty := [WeaponType.spread, WeaponType.laser, WeaponType.flame].getD
    (Rat.floor (qmul (o.rand n) 3)).toNat WeaponType.spread
  ({ type := .powerup, weaponType := some ty, pos := ⟨canvasW, 200⟩, vel := ⟨-3, 0⟩,
     size := ⟨24, 24⟩, color := "#fff", hp := 1, maxHp := 1,
     markedForDeletion := false, direction := 1 }, n + 1)

/-- `spawnEnemy`: returns `none` while the boss is active (the early return); otherwise
one draw picks the subtype (`> 0.7` drone, `> 0.4` jumper, else runner) and a drone
consumes a second draw for its altitude. -/
def spawnEnemy (o : Oracle) (n : Nat) (canvasW canvasH : ℚ) (bossActive : Bool) :
    Option Entity × Nat :=
  if bossActive then (none, n) else
  let rand := o.rand n
  let ty : EnemyType :=
    if rand > mkRat 7 10 then .drone else if rand > mkRat 4 10 then .jumper else .runner
  let yPos : ℚ :=
    if rand > mkRat 7 10 then qadd 50 (qmul (o.rand (n + 1)) 100) else qsub canvasH 80
  let color : String :=
    if rand > mkRat 7 10 then "#a855f7" else if rand > mkRat 4 10 then "#f97316" else "#22c55e"
  let n1 : Nat := if rand > mkRat 7 10 then n + 2 else n + 1
  (some { type := .enemy, subtype := some ty, pos := ⟨canvasW, yPos⟩, vel := ⟨-2, 0⟩,
          size := ⟨32, 32⟩, color := color, hp := if ty = .drone then 1 else 3, maxHp := 3,
          markedForDeletion := false, direction := -1, attackTimer := some 0,
          isGrounded := false }, n1)

/-- The boss entity pushed by `spawnBoss`. -/
def bossEntity (canvasW canvasH : ℚ) : Entity :=
  { type := .enemy, subtype := some .boss, pos := ⟨qadd canvasW 100, qsub canvasH 300⟩,
    vel := ⟨-1, 0⟩, size := ⟨120, 200⟩, color := "#ef4444", hp := 150, maxHp := 150,
    bossPhase := some 0, markedForDeletion := false, direction := -1, attackTimer := some 0 }

/-- A bullet pushed by the `spawnBullet` closure of the shooting logic. -/
def spawnBullet (p : Entity) (w : WeaponStats) (vx vy : ℚ) (ttl : Option Nat) : Entity :=
  { type := .bullet,
    pos := ⟨qadd p.pos.x (if p.direction = 1 then p.size.width else 0), qadd p.pos.y 16⟩,
    vel := ⟨vx, vy⟩, size := w.size, color := w.color, hp := 1, maxHp := 1,
    markedForDeletion := false, direction := p.direction, ttl := ttl,
    penetration := some (if p.weaponType = some .laser then 5 else 1) }

/-- The shooting logic: fire-rate gate and the per-weapon bullet patterns.  Returns the
bullets pushed this tick and the new random index (flame consumes one draw). -/
def shootingPhase (o : Oracle) (frameCount : Nat) (p : Entity) (fire : Bool) (n : Nat) :
    List Entity × Nat :=
  if fire then
    let wt := p.weaponType.getD .rifle
    let wStats := WEAPONS wt
    if frameCount % wStats.rate = 0 then
      if wt = .spread then
        ([spawnBullet p wStats (qmul ((p.direction : ℚ)) wStats.speed) 0 none,
          spawnBullet p wStats (qmul (qmul ((p.direction : ℚ)) wStats.speed) (mkRat 9 10)) (-2) none,
          spawnBullet p wStats (qmul (qmul ((p.direction : ℚ)) wStats.speed) (mkRat 9 10)) 2 none], n)
      else if wt = .flame then
        ([spawnBullet p wStats (qmul ((p.direction : ℚ)) wStats.speed)
            (qmul (qsub (o.rand n) (mkRat 1 2)) 2) (some 30)], n + 1)
      else
        ([spawnBullet p wStats (qmul ((p.direction : ℚ)) wStats.speed) 0 none], n)
    else ([], n)
  else ([], n)

/-- Player physics: input-driven horizontal velocity (with friction decay), gravity,
integration, horizontal clamping and death-by-fall (lines 206-223). -/
def playerPhysics (input : Input) (canvasW canvasH : ℚ) (p : Entity) : Entity :=
  let p := if input.left then { p with vel := ⟨-PLAYER_SPEED, p.vel.y⟩, direction := -1 }
    else if input.right then { p with vel := ⟨PLAYER_SPEED, p.vel.y⟩, direction := 1 }
    else { p with vel := ⟨qmul p.vel.x FRICTION, p.vel.y⟩ }
  let p := { p with vel := ⟨p.vel.x, qadd p.vel.y GRAVITY⟩ }
  let p := { p with pos := ⟨qadd p.pos.x p.vel.x, qadd p.pos.y p.vel.y⟩ }
  let p := if p.pos.x < 0 then { p with pos := ⟨0, p.pos.y⟩ } else p
  let p := if qadd p.pos.x p.size.width > canvasW then
    { p with pos := ⟨qsub canvasW p.size.width, p.pos.y⟩ } else p
  if p.pos.y > canvasH then { p with hp := 0 } else p

/-- The landing test of the platform loop (the identical condition appears for the
player at lines 228-233 and for ground enemies at lines 389-394). -/
def landingCond (e platform : Entity) : Bool :=
  decide (e.pos.x < qadd platform.pos.x platform.size.width) &&
  decide (qadd e.pos.x e.size.width > platform.pos.x) &&
  decide (qadd e.pos.y e.size.height > platform.pos.y) &&
  decide (qadd e.pos.y e.size.height < qadd (qadd platform.pos.y platform.size.height) 20) &&
  decide (e.vel.y >= 0)

/-- One platform-loop iteration: on landing, ground the entity, zero the vertical
velocity and snap the feet onto the platform top. -/
def resolvePlatform (e platform : Entity) : Entity :=
  if landingCond e platform then
    { e with isGrounded := true, vel := ⟨e.vel.x, 0⟩,
             pos := ⟨e.pos.x, qsub platform.pos.y e.size.height⟩ }
  else e

def resolvePlatforms (platforms : List Entity) (e : Entity) : Entity :=
  platforms.foldl resolvePlatform e

/-- Per-tick context handed to the entity-update loop: frame counter, canvas size, the
player's (already updated) position and the platform list. -/
structure Ctx where
  frameCount : Nat
  canvasW : ℚ
  canvasH : ℚ
  playerPos : V2
  platforms : List Entity

/-- Gravity for non-flying, non-bullet entities (line 293). -/
def applyGravity (e : Entity) : Entity :=
  if e.type ≠ .bullet ∧ e.type ≠ .particle ∧ e.type ≠ .powerup ∧
     e.subtype ≠ some .drone ∧ e.subtype ≠ some .boss ∧ e.type ≠ .boss_projectile then
    { e with vel := ⟨e.vel.x, qadd e.vel.y GRAVITY⟩ }
  else e

/-- Powerup drift: horizontal motion, sinusoidal scripted altitude, left-edge despawn. -/
def powerupAI (o : Oracle) (c : Ctx) (e : Entity) : Entity :=
  let e := { e with pos := ⟨qadd e.pos.x e.vel.x,
    qadd 200 (qmul (o.sin (qmul (c.frameCount : ℚ) (mkRat 5 100))) 50)⟩ }
  if e.pos.x < -50 then { e with markedForDeletion := true } else e

/-- Boss state machine (lines 304-348): phase 0 slides to the stop position and flips to
phase 1 there; otherwise the boss hovers on a sinusoid, switches 1 → 2 once
`hp < maxHp / 2`, advances its attack timer and fires on the phase-dependent cadence
(phase 2 additionally fires the straight left spread shot). -/
def bossAI (o : Oracle) (c : Ctx) (n : Nat) (e : Entity) : Entity × List Entity × Nat :=
  if e.bossPhase = some 0 then
    let e := { e with pos :=
      ⟨max (qsub (qsub c.canvasW e.size.width) 50) (qadd e.pos.x e.vel.x), e.pos.y⟩ }
    let e := if e.pos.x ≤ qsub (qsub c.canvasW e.size.width) 50 then
      { e with bossPhase := some 1 } else e
    (e, [], n)
  else
    let e := { e with pos := ⟨e.pos.x,
      qadd (qsub c.canvasH 300) (qmul (o.sin (qmul (c.frameCount : ℚ) (mkRat 2 100))) 50)⟩ }
    let e := if (e.hp : ℚ) < qhalf (e.maxHp : ℚ) ∧ e.bossPhase = some 1 then
      { e with bossPhase := some 2 } else e
    let t := e.attackTimer.getD 0 + 1
    let e := { e with attackTimer := some t }
    let attackRate : Nat := if e.bossPhase = some 2 then 40 else 80
    if t % attackRate = 0 then
      let speed : ℚ := if e.bossPhase = some 2 then 8 else 5
      let d := o.dir (qsub c.playerPos.y e.pos.y) (qsub c.playerPos.x e.pos.x)
      let aimed : Entity :=
        { type := .boss_projectile, pos := ⟨e.pos.x, qadd e.pos.y (qhalf e.size.height)⟩,
          vel := ⟨qmul d.1 speed, qmul d.2 speed⟩, size := ⟨12, 12⟩,
          color := if e.bossPhase = some 2 then "#ff0000" else "#ffa500",
          hp := 1, maxHp := 1, markedForDeletion := false, direction := -1 }
      if e.bossPhase = some 2 then
        (e, [aimed,
             { type := .boss_projectile, pos := ⟨e.pos.x, qadd e.pos.y 20⟩, vel := ⟨-8, 0⟩,
               size := ⟨16, 16⟩, color := "#ff0000", hp := 1, maxHp := 1,
               markedForDeletion := false, direction := -1 }], n)
      else (e, [aimed], n)
    else (e, [], n)

/-- Drone: horizontal drift, scripted sinusoidal altitude, probabilistic bomb drop when
near the player's x (the random draw only happens when the proximity test passes,
mirroring the short-circuit `&&`). -/
def droneAI (o : Oracle) (c : Ctx) (n : Nat) (e : Entity) : Entity × List Entity × Nat :=
  let e := { e with pos := ⟨qadd e.pos.x e.vel.x,
    qadd 100 (qmul (o.sin (qmul (c.frameCount : ℚ) (mkRat 5 100))) 50)⟩ }
  if |qsub e.pos.x c.playerPos.x| < 50 then
    if o.rand n < mkRat 5 100 then
      (e, [{ type := .boss_projectile, pos := ⟨qadd e.pos.x 16, qadd e.pos.y 32⟩,
             vel := ⟨0, 5⟩, size := ⟨8, 8⟩, color := "#fff", hp := 1, maxHp := 1,
             markedForDeletion := false, direction := 1 }], n + 1)
    else (e, [], n + 1)
  else (e, [], n)

/-- Jumper: horizontal motion plus the probabilistic reactive leap while grounded (the
draw only happens while grounded, mirroring the short-circuit `&&`). -/
def jumperAI (o : Oracle) (c : Ctx) (n : Nat) (e : Entity) : Entity × Nat :=
  let e := { e with pos := ⟨qadd e.pos.x e.vel.x, e.pos.y⟩ }
  if e.isGrounded then
    if o.rand n < mkRat 2 100 then
      ({ e with vel := ⟨if qsub c.playerPos.x e.pos.x > 0 then 4 else -4, -12⟩,
                isGrounded := false }, n + 1)
    else (e, n + 1)
  else (e, n)

/-- The enemy part of the entity-update loop (lines 303-405): subtype AI, then the
shared apply-position block, the enemy platform loop and the off-screen cleanup. -/
def enemyAI (o : Oracle) (c : Ctx) (n : Nat) (e : Entity) : Entity × List Entity × Nat :=
  let (e, spawned, n) :=
    if e.subtype = some .boss then bossAI o c n e
    else if e.subtype = some .drone then droneAI o c n e
    else if e.subtype = some .jumper then
      let (e, n) := jumperAI o c n e
      (e, [], n)
    else ({ e with pos := ⟨qadd e.pos.x e.vel.x, e.pos.y⟩ }, [], n)
  let e := if e.subtype ≠ some .boss ∧ e.subtype ≠ some .drone then
    { e with pos := ⟨qadd e.pos.x e.vel.x, qadd e.pos.y e.vel.y⟩ } else e
  let e := if e.subtype ≠ some .boss ∧ e.subtype ≠ some .drone then
    resolvePlatforms c.platforms e else e
  let e := if e.pos.y > qadd c.canvasH 100 then { e with markedForDeletion := true } else e
  let e := if e.subtype ≠ some .boss ∧ e.pos.x < -100 then
    { e with markedForDeletion := true } else e
  (e, spawned, n)

/-- Bullet / boss-projectile motion, ttl countdown with the flame's upward drift, and
the horizontal off-screen despawn (lines 407-416). -/
def projMove (canvasW : ℚ) (e : Entity) : Entity :=
  let e := { e with pos := ⟨qadd e.pos.x e.vel.x, qadd e.pos.y e.vel.y⟩ }
  let e := match e.ttl with
    | some t =>
      if t ≠ 0 then
        let e := { e with ttl := some (t - 1), vel := ⟨e.vel.x, qsub e.vel.y (mkRat 1 10)⟩ }
        if t - 1 ≤ 0 then { e with markedForDeletion := true } else e
      else e
    | none => e
  if e.pos.x < -50 ∨ e.pos.x > qadd canvasW 50 then { e with markedForDeletion := true } else e

/-- Particle motion and ttl countdown (lines 417-424). -/
def particleMove (e : Entity) : Entity :=
  let e := { e with pos := ⟨qadd e.pos.x e.vel.x, qadd e.pos.y e.vel.y⟩ }
  match e.ttl with
  | some t =>
    if t ≠ 0 then
      let e := { e with ttl := some (t - 1) }
      if t - 1 ≤ 0 then { e with markedForDeletion := true } else e
    else e
  | none => e

/-- One iteration of the entity-update loop: skip flagged entities, apply gravity, then
dispatch on the entity kind.  Returns the updated entity, the entities it pushed, and
the new random index. -/
def updateEntity (o : Oracle) (c : Ctx) (n : Nat) (e : Entity) : Entity × List Entity × Nat :=
  if e.markedForDeletion then (e, [], n) else
  let e := applyGravity e
  if e.type = .powerup then (powerupAI o c e, [], n)
  else if e.type = .enemy then enemyAI o c n e
  else if e.type = .bullet ∨ e.type = .boss_projectile then (projMove c.canvasW e, [], n)
  else if e.type = .particle then (particleMove e, [], n)
  else (e, [], n)

/-- The whole entity-update loop.  `forEach` does not visit entities pushed during the
traversal, so they are collected in the second component and appended afterwards. -/
def updateEntities (o : Oracle) (c : Ctx) : List Entity → Nat → List Entity × List Entity × Nat
  | [], n => ([], [], n)
  | e :: rest, n =>
    let (e1, sp1, n1) := updateEntity o c n e
    let (rest1, sp2, n2) := updateEntities o c rest n1
    (e1 :: rest1, sp1 ++ sp2, n2)

/-- The boss trigger (lines 279-281): spawn the boss and set the flag when no boss is
active, the score is over the threshold and no boss entity exists. -/
def spawnBossStep (score : Int) (bossActive : Bool) (es : List Entity) (canvasW canvasH : ℚ) :
    List Entity × Bool :=
  if !bossActive ∧ score > BOSS_SPAWN_SCORE ∧
     (es.filter (fun e => decide (e.subtype = some EnemyType.boss))).length = 0 then
    (es ++ [bossEntity canvasW canvasH], true)
  else (es, bossActive)

/-- The enemy cadence (line 283): every 120 frames call `spawnEnemy` (which itself
returns nothing while the boss is active). -/
def spawnEnemyStep (o : Oracle) (frameCount : Nat) (es : List Entity) (bossActive : Bool)
    (canvasW canvasH : ℚ) (n : Nat) : List Entity × Nat :=
  if frameCount % 120 = 0 then
    let se := spawnEnemy o n canvasW canvasH bossActive
    match se.1 with
    | some e => (es ++ [e], se.2)
    | none => (es, se.2)
  else (es, n)

/-- The powerup cadence (line 284): every 900 frames, unless the boss is active. -/
def spawnPowerupStep (o : Oracle) (frameCount : Nat) (es : List Entity) (bossActive : Bool)
    (canvasW : ℚ) (n : Nat) : List Entity × Nat :=
  if frameCount % 900 = 0 ∧ !bossActive then
    let pw := spawnPowerup o n canvasW
    (es ++ [pw.1], pw.2)
  else (es, n)

/-- The spawning block (lines 278-284): boss trigger first, then the enemy and powerup
cadences.  Returns the grown entity list, the boss-active flag and the random index. -/
def spawnPhase (o : Oracle) (frameCount : Nat) (score : Int) (bossActive : Bool)
    (es : List Entity) (canvasW canvasH : ℚ) (n : Nat) : List Entity × Bool × Nat :=
  let a := spawnBossStep score bossActive es canvasW canvasH
  let b := spawnEnemyStep o frameCount a.1 a.2 canvasW canvasH n
  let c := spawnPowerupStep o frameCount b.1 a.2 canvasW b.2
  (c.1, a.2, c.2)

/-- Bullet bookkeeping on an enemy hit (lines 454-458): a remaining penetration above 1
is decremented, otherwise the bullet is flagged for deletion. -/
def bulletAfterHit (b : Entity) : Entity :=
  match b.penetration with
  | some q => if q > 1 then { b with penetration := some (q - 1) } else
      { b with markedForDeletion := true }
  | none => { b with markedForDeletion := true }

/-- Mutable context threaded through the collision phase. -/
structure HitSt where
  score : Int
  bossActive : Bool
  parts : List Entity
  rngIx : Nat

/-- One bullet-on-enemy hit (lines 446-473): damage, penetration bookkeeping, the hit
particle, and the kill handling (boss: +5000, flag cleared, 50-particle burst;
otherwise +100). -/
def hitTarget (o : Oracle) (b t : Entity) (st : HitSt) : Entity × Entity × HitSt :=
  let t := if t.subtype = some .boss then { t with hp := t.hp - 1 } else { t with hp := t.hp - 1 }
  let b := bulletAfterHit b
  let (hitPart, n1) := spawnParticle o st.rngIx b.pos.x b.pos.y t.color
  let st := { st with parts := st.parts ++ [hitPart], rngIx := n1 }
  if t.hp ≤ 0 then
    if t.subtype = some .boss then
      let (dps, n2) := bossDeathBurst o t 50 st.rngIx
      (b, { t with markedForDeletion := true },
       { st with score := st.score + 5000, bossActive := false,
                 parts := st.parts ++ dps, rngIx := n2 })
    else
      (b, { t with markedForDeletion := true }, { st with score := st.score + 100 })
  else (b, t, st)

/-- The inner `forEach` of the bullet branch: sweep the whole entity list, hitting every
live enemy the bullet overlaps (the source never stops the sweep, even after the
bullet has been flagged). -/
def bulletSweep (o : Oracle) (b : Entity) (ts : List Entity) (st : HitSt) :
    Entity × List Entity × HitSt :=
  match ts with
  | [] => (b, [], st)
  | t :: rest =>
    if t.type = .enemy ∧ t.markedForDeletion = false ∧ isColliding b t = true then
      let (b1, t1, st1) := hitTarget o b t st
      let (b2, rest1, st2) := bulletSweep o b1 rest st1
      (b2, t1 :: rest1, st2)
    else
      let (b1, rest1, st1) := bulletSweep o b rest st
      (b1, t :: rest1, st1)

/-- Collision-phase state: the player, the entity list (stable length: pushed particles
are kept in `parts` until the end of the phase), and the threaded context. -/
structure CState where
  player : Entity
  entities : List Entity
  score : Int
  bossActive : Bool
  parts : List Entity
  rngIx : Nat

/-- One iteration of the outer collision `forEach` over the entity at index `i`
(lines 428-490). -/
def collideStep (o : Oracle) (s : CState) (i : Nat) : CState :=
  match s.entities.get? i with
  | none => s
  | some entity =>
    if entity.markedForDeletion then s
    else if entity.type = .powerup then
      if isColliding s.player entity then
        let (sp, n1) := particleBurst o s.player.pos.x s.player.pos.y "#fff" 10 s.rngIx
        { s with player := { s.player with weaponType := entity.weaponType },
                 score := s.score + 500,
                 entities := s.entities.set i { entity with markedForDeletion := true },
                 parts := s.parts ++ sp, rngIx := n1 }
      else s
    else if entity.type = .bullet then
      let (b1, ts1, st1) := bulletSweep o entity s.entities ⟨s.score, s.bossActive, s.parts, s.rngIx⟩
      { s with entities := ts1.set i b1, score := st1.score, bossActive := st1.bossActive,
               parts := st1.parts, rngIx := st1.rngIx }
    else if entity.type = .enemy ∨ entity.type = .boss_projectile then
      if isColliding s.player entity then
        let (pt, n1) := spawnParticle o s.rngIx s.player.pos.x s.player.pos.y "#ef4444"
        let p1 : Entity :=
          { s.player with hp := s.player.hp - 10,
                          vel := ⟨if entity.pos.x > s.player.pos.x then -10 else 10, -5⟩ }
        { s with player := p1,
                 entities := if entity.type = .boss_projectile then
                   s.entities.set i { entity with markedForDeletion := true } else s.entities,
                 parts := s.parts ++ [pt], rngIx := n1 }
      else s
    else s

/-- The first `k` iterations of the outer collision loop. -/
def collideSteps (o : Oracle) (s : CState) (k : Nat) : CState :=
  (List.range k).foldl (collideStep o) s

/-- The whole collision phase: the outer `forEach` ranges over the entities present
when it starts. -/
def collisionPhase (o : Oracle) (s : CState) : CState :=
  collideSteps o s s.entities.length

/-- The whole game state between ticks. -/
structure World where
  frameCount : Nat
  bossActive : Bool
  score : Int
  player : Entity
  entities : List Entity
  platforms : List Entity
  canvasW : ℚ
  canvasH : ℚ
  input : Input
  rngIx : Nat
  gameOver : Bool

/-- One tick of the `update` callback (lines 196-506), in the source's order: player
physics and platform resolution, shooting, spawning, the entity-update loop, the
collision phase, the end-of-tick purge and the game-over signal.  Once the game-over
signal has fired the loop is no longer scheduled, so the tick is the identity. -/
def tick (o : Oracle) (w : World) : World :=
  if w.gameOver then w else
  let frameCount := w.frameCount + 1
  let p1 := playerPhysics w.input w.canvasW w.canvasH w.player
  let p2 := resolvePlatforms w.platforms { p1 with isGrounded := false }
  let sh := shootingPhase o frameCount p2 w.input.fire w.rngIx
  let es1 := w.entities ++ sh.1
  let sp := spawnPhase o frameCount w.score w.bossActive es1 w.canvasW w.canvasH sh.2
  let c : Ctx := ⟨frameCount, w.canvasW, w.canvasH, p2.pos, w.platforms⟩
  let up := updateEntities o c sp.1 sp.2.2
  let s := collisionPhase o ⟨p2, up.1 ++ up.2.1, w.score, sp.2.1, [], up.2.2⟩
  let es5 := (s.entities ++ s.parts).filter (fun e => !e.markedForDeletion)
  { w with frameCount := frameCount, player := s.player, entities := es5,
           score := s.score, bossActive := s.bossActive, rngIx := s.rngIx,
           gameOver := decide (s.player.hp ≤ 0) }

/-! ### Concrete states used to evaluate the embedding -/

/-- A concrete oracle: every random draw is 0, `sin` is identically 0, aiming points
due right.  Any fixed oracle suffices for the closed evaluations below. -/
def oracle0 : Oracle := ⟨fun _ => 0, fun _ => 0, fun _ _ => (1, 0)⟩

/-- No key held. -/
def noInput : Input := ⟨false, false, false, false, false, false⟩

/-- A runner enemy as `spawnEnemy` creates it, placed at `x = 100`. -/
def runnerEx : Entity :=
  { type := .enemy, subtype := some .runner, pos := ⟨100, 0⟩, vel := ⟨-2, 0⟩,
    size := ⟨32, 32⟩, color := "#22c55e", hp := 3, maxHp := 3,
    markedForDeletion := false, direction := -1, attackTimer := some 0 }

/-- An update-loop context with no platforms. -/
def ctx0 : Ctx := ⟨5, 800, 600, ⟨400, 300⟩, []⟩

/-! ### Shared helper lemmas -/

theorem foldl_inv {α β : Type} (f : α → β → α) (P : α → Prop)
    (h : ∀ a b, P a → P (f a b)) : ∀ (l : List β) (a : α), P a → P (l.foldl f a) := by
  intro l
  induction l with
  | nil => intro a ha; exact ha
  | cons b t ih => intro a ha; exact ih (f a b) (h a b ha)

theorem collideSteps_succ (o : Oracle) (s : CState) (k : Nat) :
    collideSteps o s (k + 1) = collideStep o (collideSteps o s k) k := by
  simp [collideSteps, List.range_succ]

theorem mem_of_mem_set {l : List Entity} {i : Nat} {a x : Entity}
    (h : x ∈ l.set i a) : x = a ∨ x ∈ l := by
  induction l generalizing i with
  | nil => simp at h
  | cons b t ih =>
    cases i with
    | zero =>
      rcases List.mem_cons.1 h with h1 | h1
      · exact Or.inl h1
      · exact Or.inr (List.mem_cons_of_mem _ h1)
    | succ j =>
      rcases List.mem_cons.1 h with h1 | h1
      · exact Or.inr (h1 ▸ List.mem_cons_self _ _)
      · rcases ih h1 with h2 | h2
        · exact Or.inl h2
        · exact Or.inr (List.mem_cons_of_mem _ h2)

theorem applyGravity_not (e : Entity)
    (h : e.subtype = some .drone ∨ e.subtype = some .boss ∨ e.type = .bullet ∨
      e.type = .particle ∨ e.type = .powerup ∨ e.type = .boss_projectile) :
    applyGravity e = e := by
  rcases h with h | h | h | h | h | h <;> simp [applyGravity, h]

theorem applyGravity_fields (e : Entity) :
    (applyGravity e).pos = e.pos ∧ (applyGravity e).vel.x = e.vel.x ∧
    (applyGravity e).subtype = e.subtype ∧ (applyGravity e).isGrounded = e.isGrounded ∧
    (applyGravity e).markedForDeletion = e.markedForDeletion ∧
    (applyGravity e).type = e.type ∧ (applyGravity e).hp = e.hp ∧
    (applyGravity e).bossPhase = e.bossPhase ∧ (applyGravity e).maxHp = e.maxHp := by
  unfold applyGravity; split <;> simp

theorem updateEntity_of_enemy (o : Oracle) (c : Ctx) (n : Nat) (e : Entity)
    (hm : e.markedForDeletion = false) (ht : e.type = .enemy) :
    updateEntity o c n e = enemyAI o c n (applyGravity e) := by
  have hg : (applyGravity e).type = .enemy := by
    unfold applyGravity; split <;> simp [ht]
  unfold updateEntity
  simp [hm, hg]

theorem droneAI_fst (o : Oracle) (c : Ctx) (n : Nat) (e : Entity) :
    (droneAI o c n e).1 = { e with pos := ⟨qadd e.pos.x e.vel.x,
      qadd 100 (qmul (o.sin (qmul (c.frameCount : ℚ) (mkRat 5 100))) 50)⟩ } := by
  unfold droneAI
  dsimp only
  split
  · split <;> rfl
  · rfl

theorem resolvePlatform_pos_x (e p : Entity) : (resolvePlatform e p).pos.x = e.pos.x := by
  unfold resolvePlatform; split <;> rfl

theorem resolvePlatforms_pos_x (ps : List Entity) (e : Entity) :
    (resolvePlatforms ps e).pos.x = e.pos.x := by
  induction ps generalizing e with
  | nil => rfl
  | cons p t ih =>
    show (resolvePlatforms t (resolvePlatform e p)).pos.x = e.pos.x
    rw [ih, resolvePlatform_pos_x]

theorem enemyAI_drone_x (o : Oracle) (c : Ctx) (n : Nat) (e : Entity)
    (hs : e.subtype = some .drone) :
    (enemyAI o c n e).1.pos.x = qadd e.pos.x e.vel.x := by
  rcases hd : droneAI o c n e with ⟨e1, sp1, n1⟩
  have he1 : e1 = (droneAI o c n e).1 := by rw [hd]
  have hs1 : e1.subtype = some EnemyType.drone := by rw [he1, droneAI_fst]; exact hs
  have hx1 : e1.pos.x = qadd e.pos.x e.vel.x := by rw [he1, droneAI_fst]
  unfold enemyAI
  simp only [hs, hd]
  simp [hs1]
  split <;> split <;> simp [hx1]

theorem enemyAI_runner_x (o : Oracle) (c : Ctx) (n : Nat) (e : Entity)
    (hs : e.subtype = some .runner) :
    (enemyAI o c n e).1.pos.x = qadd (qadd e.pos.x e.vel.x) e.vel.x := by
  unfold enemyAI
  simp [hs]
  split <;> split <;> simp [resolvePlatforms_pos_x]

theorem enemyAI_jumper_x (o : Oracle) (c : Ctx) (n : Nat) (e : Entity)
    (hs : e.subtype = some .jumper) (hg : e.isGrounded = false) :
    (enemyAI o c n e).1.pos.x = qadd (qadd e.pos.x e.vel.x) e.vel.x := by
  unfold enemyAI jumperAI
  simp [hs, hg]
  split <;> split <;> simp [resolvePlatforms_pos_x]

theorem playerPhysics_advance (input : Input) (cw ch : ℚ) (p : Entity)
    (h1 : ¬ (qadd p.pos.x (playerPhysics input cw ch p).vel.x < 0))
    (h2 : ¬ (qadd (qadd p.pos.x (playerPhysics input cw ch p).vel.x) p.size.width > cw)) :
    (playerPhysics input cw ch p).pos.x = qadd p.pos.x (playerPhysics input cw ch p).vel.x ∧
    (playerPhysics input cw ch p).pos.y = qadd p.pos.y (playerPhysics input cw ch p).vel.y := by
  unfold playerPhysics at *
  by_cases hl : input.left <;> by_cases hr : input.right <;>
    simp [hl, hr] at * <;> split_ifs at * <;> (try simp_all) <;> linarith

/-! ### Claim C1 -/

/-- C1 counterexample: a live runner at `x = 100` with velocity `(-2, 0)` leaves the
movement phase at `x = 96`, not at `pos.x + vel.x = 98`: its x axis is advanced twice
in one tick (once in the runner branch, once in the shared apply-position block). -/
theorem c1_runner_double_advance :
    (updateEntity oracle0 ctx0 0 runnerEx).1.pos.x = 96 ∧
    qadd runnerEx.pos.x runnerEx.vel.x = 98 := by decide

/-- C1 (amended): in the movement phase of a tick the player advances `pos += vel`
exactly once per axis (whenever the horizontal world-bound clamps do not engage), and a
drone advances its x axis exactly once; but a runner, and a jumper that does not start a
leap, advance their x axis twice — the subtype branch and the shared apply-position
block each add `vel.x`. -/
theorem c1_movement_phase_advance :
    (∀ (input : Input) (cw ch : ℚ) (p : Entity),
      ¬ (qadd p.pos.x (playerPhysics input cw ch p).vel.x < 0) →
      ¬ (qadd (qadd p.pos.x (playerPhysics input cw ch p).vel.x) p.size.width > cw) →
      (playerPhysics input cw ch p).pos.x = qadd p.pos.x (playerPhysics input cw ch p).vel.x ∧
      (playerPhysics input cw ch p).pos.y = qadd p.pos.y (playerPhysics input cw ch p).vel.y) ∧
    (∀ (o : Oracle) (c : Ctx) (n : Nat) (e : Entity), e.markedForDeletion = false →
      e.type = .enemy → e.subtype = some .drone →
      (updateEntity o c n e).1.pos.x = qadd e.pos.x e.vel.x) ∧
    (∀ (o : Oracle) (c : Ctx) (n : Nat) (e : Entity), e.markedForDeletion = false →
      e.type = .enemy → e.subtype = some .runner →
      (updateEntity o c n e).1.pos.x = qadd (qadd e.pos.x e.vel.x) e.vel.x) ∧
    (∀ (o : Oracle) (c : Ctx) (n : Nat) (e : Entity), e.markedForDeletion = false →
      e.type = .enemy → e.subtype = some .jumper → e.isGrounded = false →
      (updateEntity o c n e).1.pos.x = qadd (qadd e.pos.x e.vel.x) e.vel.x) := by
  refine ⟨fun input cw ch p h1 h2 => playerPhysics_advance input cw ch p h1 h2,
    fun o c n e hm ht hs => ?_, fun o c n e hm ht hs => ?_, fun o c n e hm ht hs hg => ?_⟩
  · rw [updateEntity_of_enemy o c n e hm ht, applyGravity_not e (Or.inl hs)]
    exact enemyAI_drone_x o c n e hs
  · rw [updateEntity_of_enemy o c n e hm ht]
    rw [enemyAI_runner_x o c n _ (by rw [(applyGravity_fields e).2.2.1]; exact hs)]
    rw [(applyGravity_fields e).1, (applyGravity_fields e).2.1]
  · rw [updateEntity_of_enemy o c n e hm ht]
    rw [enemyAI_jumper_x o c n _ (by rw [(applyGravity_fields e).2.2.1]; exact hs)
      (by rw [(applyGravity_fields e).2.2.2.1]; exact hg)]
    rw [(applyGravity_fields e).1, (applyGravity_fields e).2.1]

/-- C1 witness: the amended statement evaluated on concrete entities. -/
theorem c1_movement_phase_advance_witness :
    ((playerPhysics noInput 800 600
        { type := .player, weaponType := some .rifle, pos := ⟨100, 10⟩, vel := ⟨0, 0⟩,
          size := ⟨32, 48⟩, color := "#3b82f6", hp := 100, maxHp := 100,
          markedForDeletion := false, direction := 1 }).pos.y =
      qadd 10 (qadd 0 GRAVITY)) ∧
    ((updateEntity oracle0 ctx0 0
        { type := .enemy, subtype := some .drone, pos := ⟨400, 80⟩, vel := ⟨-2, 0⟩,
          size := ⟨32, 32⟩, color := "#a855f7", hp := 1, maxHp := 3,
          markedForDeletion := false, direction := -1, attackTimer := some 0 }).1.pos.x =
      qadd 400 (-2)) ∧
    ((updateEntity oracle0 ctx0 0 runnerEx).1.pos.x = qadd (qadd 100 (-2)) (-2)) := by
  refine ⟨?_, ?_, ?_⟩
  · exact (c1_movement_phase_advance.1 noInput 800 600 _ (by decide) (by decide)).2
  · exact c1_movement_phase_advance.2.1 oracle0 ctx0 0 _ (by decide) (by decide) (by decide)
  · exact c1_movement_phase_advance.2.2.1 oracle0 ctx0 0 runnerEx rfl rfl rfl

/-! ### Claim C7 -/

/-- C7: a laser bullet is created with penetration 5, survives its first four enemy
hits (its penetration dropping by one each time) and is flagged for destruction on the
fifth; a rifle (non-laser) bullet is created with penetration 1 and is flagged on its
first hit. -/
theorem c7_penetration_law :
    (∀ (p : Entity) (w : WeaponStats) (vx vy : ℚ) (t : Option Nat),
      (spawnBullet p w vx vy t).penetration =
        some (if p.weaponType = some WeaponType.laser then 5 else 1)) ∧
    (∀ b : Entity, b.penetration = some 5 → b.markedForDeletion = false →
      (∀ k, k ≤ 4 → (bulletAfterHit^[k] b).penetration = some (5 - k) ∧
        (bulletAfterHit^[k] b).markedForDeletion = false) ∧
      (bulletAfterHit^[5] b).markedForDeletion = true) ∧
    (∀ b : Entity, b.penetration = some 1 → (bulletAfterHit b).markedForDeletion = true) := by
  refine ⟨fun p w vx vy t => rfl, fun b h5 hm => ?_, fun b h1 => by simp [bulletAfterHit, h1]⟩
  have s1 : bulletAfterHit b = { b with penetration := some 4 } := by
    simp [bulletAfterHit, h5]
  have s2 : bulletAfterHit { b with penetration := some 4 } =
      { b with penetration := some 3 } := by simp [bulletAfterHit]
  have s3 : bulletAfterHit { b with penetration := some 3 } =
      { b with penetration := some 2 } := by simp [bulletAfterHit]
  have s4 : bulletAfterHit { b with penetration := some 2 } =
      { b with penetration := some 1 } := by simp [bulletAfterHit]
  have s5 : bulletAfterHit { b with penetration := some 1 } =
      { b with penetration := some 1, markedForDeletion := true } := by
    simp [bulletAfterHit]
  have i1 : bulletAfterHit^[1] b = { b with penetration := some 4 } := by
    rw [Function.iterate_one, s1]
  have i2 : bulletAfterHit^[2] b = { b with penetration := some 3 } := by
    rw [Function.iterate_succ_apply', i1, s2]
  have i3 : bulletAfterHit^[3] b = { b with penetration := some 2 } := by
    rw [Function.iterate_succ_apply', i2, s3]
  have i4 : bulletAfterHit^[4] b = { b with penetration := some 1 } := by
    rw [Function.iterate_succ_apply', i3, s4]
  have i5 : bulletAfterHit^[5] b = { b with penetration := some 1, markedForDeletion := true } := by
    rw [Function.iterate_succ_apply', i4, s5]
  refine ⟨fun k hk => ?_, by rw [i5]⟩
  interval_cases k <;> simp [s1, i1, i2, i3, i4, h5, hm]

/-- A freshly created laser bullet (as the shooting phase creates it for the laser). -/
def laserBulletEx : Entity :=
  { type := .bullet, pos := ⟨132, 116⟩, vel := ⟨20, 0⟩, size := ⟨30, 4⟩, color := "#3b82f6",
    hp := 1, maxHp := 1, markedForDeletion := false, direction := 1, penetration := some 5 }

/-- C7 witness: the penetration law evaluated on a concrete laser bullet and a concrete
rifle bullet. -/
theorem c7_penetration_law_witness :
    (spawnBullet
        { type := .player, weaponType := some .laser, pos := ⟨100, 100⟩, vel := ⟨0, 0⟩,
          size := ⟨32, 48⟩, color := "#3b82f6", hp := 100, maxHp := 100,
          markedForDeletion := false, direction := 1 } (WEAPONS .laser) 20 0 none).penetration =
      some 5 ∧
    (bulletAfterHit^[4] laserBulletEx).penetration = some 1 ∧
    (bulletAfterHit^[4] laserBulletEx).markedForDeletion = false ∧
    (bulletAfterHit^[5] laserBulletEx).markedForDeletion = true ∧
    (bulletAfterHit
        { type := .bullet, pos := ⟨132, 116⟩, vel := ⟨12, 0⟩, size := ⟨8, 4⟩,
          color := "#facc15", hp := 1, maxHp := 1, markedForDeletion := false,
          direction := 1, penetration := some 1 }).markedForDeletion = true := by
  refine ⟨by simpa using c7_penetration_law.1 _ (WEAPONS .laser) 20 0 none,
    ((c7_penetration_law.2.1 laserBulletEx rfl rfl).1 4 (by decide)).1,
    ((c7_penetration_law.2.1 laserBulletEx rfl rfl).1 4 (by decide)).2,
    (c7_penetration_law.2.1 laserBulletEx rfl rfl).2,
    c7_penetration_law.2.2 _ rfl⟩

theorem bossAI_phase_cases (o : Oracle) (c : Ctx) (n : Nat) (e : Entity) :
    (bossAI o c n e).1.bossPhase = e.bossPhase ∨
    (e.bossPhase = some 0 ∧ (bossAI o c n e).1.bossPhase = some 1) ∨
    (e.bossPhase = some 1 ∧ (e.hp : ℚ) < qhalf (e.maxHp : ℚ) ∧
      (bossAI o c n e).1.bossPhase = some 2) := by
  unfold bossAI
  dsimp only
  split
  · rename_i h0
    split
    · exact Or.inr (Or.inl ⟨h0, rfl⟩)
    · exact Or.inl rfl
  · split
    · rename_i hcond
      refine Or.inr (Or.inr ⟨hcond.2, hcond.1, ?_⟩)
      split <;> (try split) <;> rfl
    · rename_i hcond
      refine Or.inl ?_
      split <;> (try split) <;> rfl

theorem bossAI_phase1_iff (o : Oracle) (c : Ctx) (n : Nat) (e : Entity)
    (h1 : e.bossPhase = some 1) :
    ((bossAI o c n e).1.bossPhase = some 2 ↔ (e.hp : ℚ) < qhalf (e.maxHp : ℚ)) := by
  unfold bossAI
  simp [h1]
  by_cases hc : (e.hp : ℚ) < qhalf (e.maxHp : ℚ) <;> simp [hc] <;>
    split <;> (try split) <;> simp [h1, hc]



theorem bossAI_phase2 (o : Oracle) (c : Ctx) (n : Nat) (e : Entity)
    (h2 : e.bossPhase = some 2) : (bossAI o c n e).1.bossPhase = some 2 := by
  unfold bossAI
  simp [h2]
  split <;> (try split) <;> simp [h2]

theorem bossAI_subtype (o : Oracle) (c : Ctx) (n : Nat) (e : Entity) :
    (bossAI o c n e).1.subtype = e.subtype := by
  unfold bossAI
  dsimp only
  split
  · split <;> rfl
  · split <;> split <;> (try split) <;> rfl

theorem enemyAI_boss_phase (o : Oracle) (c : Ctx) (n : Nat) (e : Entity)
    (hs : e.subtype = some .boss) :
    (enemyAI o c n e).1.bossPhase = (bossAI o c n e).1.bossPhase := by
  rcases hb : bossAI o c n e with ⟨e1, sp1, n1⟩
  have he1 : e1 = (bossAI o c n e).1 := by rw [hb]
  have hs1 : e1.subtype = some EnemyType.boss := by rw [he1, bossAI_subtype]; exact hs
  unfold enemyAI
  simp only [hs, hb]
  simp [hs1]
  split <;> split <;> simp [he1]

theorem hitTarget_target_bossPhase (o : Oracle) (b t : Entity) (st : HitSt) :
    (hitTarget o b t st).2.1.bossPhase = t.bossPhase := by
  unfold hitTarget
  split <;> dsimp only <;> split <;> (try split) <;> rfl



theorem bulletAfterHit_bossPhase (b : Entity) : (bulletAfterHit b).bossPhase = b.bossPhase := by
  unfold bulletAfterHit
  split <;> (try split) <;> rfl

theorem hitTarget_bullet (o : Oracle) (b t : Entity) (st : HitSt) :
    (hitTarget o b t st).1 = bulletAfterHit b := by
  unfold hitTarget
  dsimp only
  split <;> (try split) <;> rfl

theorem bulletSweep_length (o : Oracle) (b : Entity) (ts : List Entity) (st : HitSt) :
    (bulletSweep o b ts st).2.1.length = ts.length := by
  induction ts generalizing b st with
  | nil => rfl
  | cons t rest ih =>
    unfold bulletSweep
    dsimp only
    split
    · rcases hh : hitTarget o b t st with ⟨b1, t1, st1⟩
      simp [hh, ih]
    · simp [ih]

theorem bulletSweep_bullet_bossPhase (o : Oracle) (b : Entity) (ts : List Entity) (st : HitSt) :
    (bulletSweep o b ts st).1.bossPhase = b.bossPhase := by
  induction ts generalizing b st with
  | nil => rfl
  | cons t rest ih =>
    unfold bulletSweep
    dsimp only
    split
    · rcases hh : hitTarget o b t st with ⟨b1, t1, st1⟩
      have : b1 = bulletAfterHit b := by
        have := hitTarget_bullet o b t st
        rw [hh] at this; exact this
      simp only []
      rw [show (bulletSweep o b1 rest st1).1.bossPhase = b1.bossPhase from ih b1 st1]
      rw [this, bulletAfterHit_bossPhase]
    · exact ih b st

theorem get?_set_entity (l : List Entity) (i j : Nat) (a : Entity) :
    (l.set i a).get? j = if i = j ∧ j < l.length then some a else l.get? j := by
  induction l generalizing i j with
  | nil => simp
  | cons x t ih =>
    cases i with
    | zero => cases j <;> simp
    | succ i1 =>
      cases j with
      | zero => simp
      | succ j1 => simpa [Nat.succ_lt_succ_iff] using ih i1 j1

theorem bulletSweep_get?_bossPhase (o : Oracle) (b : Entity) (ts : List Entity) (st : HitSt)
    (j : Nat) : ((bulletSweep o b ts st).2.1.get? j).map Entity.bossPhase =
      (ts.get? j).map Entity.bossPhase := by
  induction ts generalizing b st j with
  | nil => rfl
  | cons t rest ih =>
    unfold bulletSweep
    dsimp only
    split
    · rcases hh : hitTarget o b t st with ⟨b1, t1, st1⟩
      have ht1 : t1.bossPhase = t.bossPhase := by
        have := hitTarget_target_bossPhase o b t st
        rw [hh] at this; exact this
      cases j with
      | zero => simp [ht1]
      | succ j1 => simpa using ih b1 st1 j1
    · cases j with
      | zero => simp
      | succ j1 => simpa using ih b st j1



theorem collideStep_bossPhase (o : Oracle) (s : CState) (i j : Nat) :
    ((collideStep o s i).entities.get? j).map Entity.bossPhase =
      (s.entities.get? j).map Entity.bossPhase := by
  unfold collideStep
  rcases hg : s.entities.get? i with _ | entity
  · rfl
  · dsimp only
    split
    · rfl
    · split
      · split
        · rcases hpb : particleBurst o s.player.pos.x s.player.pos.y "#fff" 10 s.rngIx
            with ⟨sp, n1⟩
          dsimp only
          rw [get?_set_entity]
          split
          · rename_i hij
            rw [← hij.1, hg]
            rfl
          · rfl
        · rfl
      · split
        · rcases hbs : bulletSweep o entity s.entities ⟨s.score, s.bossActive, s.parts, s.rngIx⟩
            with ⟨b1, ts1, st1⟩
          dsimp only
          rw [get?_set_entity]
          split
          · rename_i hij
            have hb1 : b1.bossPhase = entity.bossPhase := by
              have := bulletSweep_bullet_bossPhase o entity s.entities
                ⟨s.score, s.bossActive, s.parts, s.rngIx⟩
              rw [hbs] at this; exact this
            rw [← hij.1, hg]
            simp [hb1]
          · have := bulletSweep_get?_bossPhase o entity s.entities
              ⟨s.score, s.bossActive, s.parts, s.rngIx⟩ j
            rw [hbs] at this
            exact this
        · split
          · split
            · dsimp only
              split
              · rw [get?_set_entity]
                split
                · rename_i hij
                  rw [← hij.1, hg]
                  rfl
                · rfl
              · rfl
            · rfl
          · rfl

/-! ### Claim C5 -/

/-- C5: the boss's `bossPhase` never decreases across any tick (the AI step is the only
write site, and the collision phase preserves every entity's phase); when the boss is in
phase 1 the AI step moves it to phase 2 exactly when `hp < maxHp / 2` holds at that
step, whatever the frame counter is; and phase 2 is absorbing. -/
theorem c5_boss_phase :
    (∀ (o : Oracle) (c : Ctx) (n : Nat) (e : Entity) (p : Nat),
      e.markedForDeletion = false → e.type = .enemy → e.subtype = some .boss →
      e.bossPhase = some p →
      (∃ p1, (updateEntity o c n e).1.bossPhase = some p1 ∧ p ≤ p1) ∧
      (p = 1 → ((updateEntity o c n e).1.bossPhase = some 2 ↔
        (e.hp : ℚ) < (e.maxHp : ℚ) / 2)) ∧
      (p = 2 → (updateEntity o c n e).1.bossPhase = some 2)) ∧
    (∀ (o : Oracle) (s : CState) (i j : Nat),
      ((collideStep o s i).entities.get? j).map Entity.bossPhase =
        (s.entities.get? j).map Entity.bossPhase) := by
  constructor
  · intro o c n e p hm ht hs hp
    rw [updateEntity_of_enemy o c n e hm ht, applyGravity_not e (Or.inr (Or.inl hs))]
    rw [enemyAI_boss_phase o c n e hs]
    refine ⟨?_, ?_, ?_⟩
    · rcases bossAI_phase_cases o c n e with h | ⟨h0, h⟩ | ⟨h0, hcond, h⟩
      · exact ⟨p, by rw [h, hp], le_refl p⟩
      · rw [hp] at h0
        exact ⟨1, h, by simp at h0; omega⟩
      · rw [hp] at h0
        exact ⟨2, h, by simp at h0; omega⟩
    · intro hp1
      rw [hp1] at hp
      rw [bossAI_phase1_iff o c n e hp, qhalf_eq]
    · intro hp2
      rw [hp2] at hp
      exact bossAI_phase2 o c n e hp
  · exact collideStep_bossPhase

/-- A phase-1 boss below half health. -/
def bossPhase1Low : Entity :=
  { type := .enemy, subtype := some .boss, pos := ⟨500, 300⟩, vel := ⟨-1, 0⟩,
    size := ⟨120, 200⟩, color := "#ef4444", hp := 70, maxHp := 150,
    bossPhase := some 1, markedForDeletion := false, direction := -1, attackTimer := some 0 }

/-- A phase-2 boss. -/
def bossPhase2Ex : Entity :=
  { type := .enemy, subtype := some .boss, pos := ⟨500, 300⟩, vel := ⟨-1, 0⟩,
    size := ⟨120, 200⟩, color := "#ef4444", hp := 100, maxHp := 150,
    bossPhase := some 2, markedForDeletion := false, direction := -1, attackTimer := some 0 }

/-- C5 witness: a phase-1 boss at 70/150 hp flips to phase 2 on that step; a phase-2
boss at 100/150 hp (hypothetically healed above half) stays in phase 2; one concrete
collision step preserves the phase. -/
theorem c5_boss_phase_witness :
    (updateEntity oracle0 ctx0 0 bossPhase1Low).1.bossPhase = some 2 ∧
    (updateEntity oracle0 ctx0 0 bossPhase2Ex).1.bossPhase = some 2 ∧
    ((collideStep oracle0 ⟨bossPhase2Ex, [bossPhase1Low], 0, true, [], 0⟩ 0).entities.get?
        0).map Entity.bossPhase = ((⟨bossPhase2Ex, [bossPhase1Low], 0, true, [], 0⟩ :
        CState).entities.get? 0).map Entity.bossPhase := by
  refine ⟨?_, ?_, ?_⟩
  · exact ((c5_boss_phase.1 oracle0 ctx0 0 bossPhase1Low 1 rfl rfl rfl rfl).2.1 rfl).mpr
      (by norm_num [bossPhase1Low])
  · exact (c5_boss_phase.1 oracle0 ctx0 0 bossPhase2Ex 2 rfl rfl rfl rfl).2.2 rfl
  · exact c5_boss_phase.2 oracle0 _ 0 0

/-- The effect of one bullet hit on the target alone: 1 damage, and the removal flag
when hp falls to 0 or below.  This is the target component of `hitTarget`; it depends
only on the target. -/
def damagedTarget (t : Entity) : Entity :=
  if t.hp - 1 ≤ 0 then { t with hp := t.hp - 1, markedForDeletion := true }
  else { t with hp := t.hp - 1 }

theorem hitTarget_target (o : Oracle) (b t : Entity) (st : HitSt) :
    (hitTarget o b t st).2.1 = damagedTarget t := by
  unfold hitTarget damagedTarget
  dsimp only
  split <;> split <;> simp_all <;> (try split) <;> simp_all

theorem bulletAfterHit_fields (b : Entity) :
    (bulletAfterHit b).pos = b.pos ∧ (bulletAfterHit b).size = b.size ∧
    (bulletAfterHit b).type = b.type ∧ (bulletAfterHit b).hp = b.hp := by
  unfold bulletAfterHit
  split <;> (try split) <;> simp

theorem isColliding_bulletAfterHit (b t : Entity) :
    isColliding (bulletAfterHit b) t = isColliding b t := by
  unfold isColliding
  rw [(bulletAfterHit_fields b).1, (bulletAfterHit_fields b).2.1]

theorem bulletSweep_targets (o : Oracle) (b : Entity) (ts : List Entity) (st : HitSt) :
    (bulletSweep o b ts st).2.1 = ts.map (fun t =>
      if t.type = .enemy ∧ t.markedForDeletion = false ∧ isColliding b t = true
      then damagedTarget t else t) := by
  induction ts generalizing b st with
  | nil => rfl
  | cons t rest ih =>
    unfold bulletSweep
    dsimp only
    split
    · rename_i hcond
      rcases hh : hitTarget o b t st with ⟨b1, t1, st1⟩
      have ht1 : t1 = damagedTarget t := by
        have := hitTarget_target o b t st
        rw [hh] at this; exact this
      have hb1 : b1 = bulletAfterHit b := by
        have := hitTarget_bullet o b t st
        rw [hh] at this; exact this
      have htl : (bulletSweep o b1 rest st1).2.1 = rest.map (fun t2 =>
          if t2.type = .enemy ∧ t2.markedForDeletion = false ∧ isColliding b t2 = true
          then damagedTarget t2 else t2) := by
        rw [ih b1 st1]
        refine List.map_congr_left (fun t2 _ => ?_)
        rw [hb1, isColliding_bulletAfterHit]
      simp [hcond, ht1, htl]
    · rename_i hcond
      simp [hcond, ih b st]

theorem bulletAfterHit_marked_mono (b : Entity) (h : b.markedForDeletion = true) :
    (bulletAfterHit b).markedForDeletion = true := by
  unfold bulletAfterHit
  split <;> (try split) <;> simp [h]

theorem bulletSweep_marked_mono (o : Oracle) (b : Entity) (ts : List Entity) (st : HitSt)
    (h : b.markedForDeletion = true) : (bulletSweep o b ts st).1.markedForDeletion = true := by
  induction ts generalizing b st with
  | nil => exact h
  | cons t rest ih =>
    unfold bulletSweep
    dsimp only
    split
    · rcases hh : hitTarget o b t st with ⟨b1, t1, st1⟩
      have hb1 : b1 = bulletAfterHit b := by
        have := hitTarget_bullet o b t st
        rw [hh] at this; exact this
      exact ih b1 st1 (by rw [hb1]; exact bulletAfterHit_marked_mono b h)
    · exact ih b st h

/-! ### Claim C3 -/

/-- A rifle bullet overlapping two live enemies at once. -/
def rifleB3 : Entity :=
  { type := .bullet, pos := ⟨100, 100⟩, vel := ⟨12, 0⟩, size := ⟨8, 4⟩, color := "#facc15",
    hp := 1, maxHp := 1, markedForDeletion := false, direction := 1, penetration := some 1 }

/-- First overlapped enemy. -/
def enemyA3 : Entity :=
  { type := .enemy, subtype := some .runner, pos := ⟨100, 100⟩, vel := ⟨-2, 0⟩,
    size := ⟨32, 32⟩, color := "#22c55e", hp := 3, maxHp := 3,
    markedForDeletion := false, direction := -1, attackTimer := some 0 }

/-- Second overlapped enemy. -/
def enemyB3 : Entity :=
  { type := .enemy, subtype := some .runner, pos := ⟨90, 100⟩, vel := ⟨-2, 0⟩,
    size := ⟨32, 32⟩, color := "#22c55e", hp := 3, maxHp := 3,
    markedForDeletion := false, direction := -1, attackTimer := some 0 }

/-- A player standing far away from the collision site. -/
def farPlayer : Entity :=
  { type := .player, weaponType := some .rifle, pos := ⟨500, 0⟩, vel := ⟨0, 0⟩,
    size := ⟨32, 48⟩, color := "#3b82f6", hp := 100, maxHp := 100,
    markedForDeletion := false, direction := 1 }

/-- C3 counterexample: in a single collision phase a penetration-1 rifle bullet
overlapping two live enemies damages both of them (each drops from 3 hp to 2 hp) even
though the bullet is flagged for deletion at its first hit. -/
theorem c3_rifle_hits_two :
    ((collisionPhase oracle0 ⟨farPlayer, [rifleB3, enemyA3, enemyB3], 0, false, [], 0⟩
        ).entities.map fun e => (e.hp, e.markedForDeletion)) =
      [(1, true), (2, false), (2, false)] ∧
    rifleB3.penetration = some 1 ∧
    isColliding rifleB3 enemyA3 = true ∧ isColliding rifleB3 enemyB3 = true := by decide

/-- C3 (amended): the bullet-versus-enemy sweep of one tick damages every live enemy
the bullet overlaps, regardless of the bullet's penetration count: the swept list is
exactly the input list with `damagedTarget` applied to each live colliding enemy.  A
penetration-1 bullet is flagged for deletion at its first hit, but the flag does not
stop the sweep, so the one-enemy limit holds only across ticks (the flagged bullet is
purged at the end of the tick), not within one tick. -/
theorem c3_single_hit_only_across_ticks :
    (∀ (o : Oracle) (b : Entity) (ts : List Entity) (st : HitSt),
      (bulletSweep o b ts st).2.1 = ts.map (fun t =>
        if t.type = .enemy ∧ t.markedForDeletion = false ∧ isColliding b t = true
        then damagedTarget t else t)) ∧
    (∀ (o : Oracle) (b : Entity) (ts : List Entity) (st : HitSt),
      b.penetration = some 1 →
      (∃ t ∈ ts, t.type = .enemy ∧ t.markedForDeletion = false ∧ isColliding b t = true) →
      (bulletSweep o b ts st).1.markedForDeletion = true) := by
  refine ⟨bulletSweep_targets, fun o b ts st hpen hex => ?_⟩
  induction ts generalizing b st with
  | nil => simp at hex
  | cons t rest ih =>
    unfold bulletSweep
    dsimp only
    split
    · rcases hh : hitTarget o b t st with ⟨b1, t1, st1⟩
      have hb1 : b1 = bulletAfterHit b := by
        have := hitTarget_bullet o b t st
        rw [hh] at this; exact this
      have hm1 : b1.markedForDeletion = true := by
        rw [hb1]; unfold bulletAfterHit; rw [hpen]; simp
      exact bulletSweep_marked_mono o b1 rest st1 hm1
    · rename_i hcond
      rcases hex with ⟨t2, ht2, hP⟩
      rcases List.mem_cons.1 ht2 with h | h
      · exact absurd (h ▸ hP) hcond
      · exact ih b st hpen ⟨t2, h, hP⟩

/-- C3 witness: the amended sweep characterization and first-hit flagging evaluated on
the concrete two-enemy overlap. -/
theorem c3_single_hit_witness :
    (bulletSweep oracle0 rifleB3 [enemyA3, enemyB3] ⟨0, false, [], 0⟩).2.1 =
      [damagedTarget enemyA3, damagedTarget enemyB3] ∧
    (bulletSweep oracle0 rifleB3 [enemyA3, enemyB3] ⟨0, false, [], 0⟩).1.markedForDeletion
      = true := by
  constructor
  · rw [c3_single_hit_only_across_ticks.1 oracle0 rifleB3 [enemyA3, enemyB3] ⟨0, false, [], 0⟩]
    simp only [List.map_cons, List.map_nil]
    rw [if_pos ⟨rfl, rfl, by decide⟩, if_pos ⟨rfl, rfl, by decide⟩]
  · exact c3_single_hit_only_across_ticks.2 oracle0 rifleB3 _ _ rfl
      ⟨enemyA3, by decide, rfl, rfl, by decide⟩

theorem isColliding_player_congr (p1 p2 e : Entity) (hpos : p1.pos = p2.pos)
    (hsize : p1.size = p2.size) : isColliding p1 e = isColliding p2 e := by
  unfold isColliding
  rw [hpos, hsize]

theorem collideSteps_player_damage (o : Oracle) (s : CState)
    (H : ∀ e ∈ s.entities, (e.type = .enemy ∨ e.type = .boss_projectile) ∧
      e.markedForDeletion = false) :
    ∀ k, (collideSteps o s k).player.pos = s.player.pos ∧
      (collideSteps o s k).player.size = s.player.size ∧
      (collideSteps o s k).player.hp = s.player.hp -
        10 * (((s.entities.take k).filter (fun e => isColliding s.player e)).length : Int) ∧
      (∀ j, k ≤ j → (collideSteps o s k).entities.get? j = s.entities.get? j) ∧
      (0 < ((s.entities.take k).filter (fun e => isColliding s.player e)).length →
        (collideSteps o s k).player.vel.y = -5) := by
  intro k
  induction k with
  | zero => exact ⟨rfl, rfl, by simp [collideSteps], fun j _ => rfl, by simp⟩
  | succ k ih =>
    obtain ⟨hpos, hsize, hhp, hget, hvel⟩ := ih
    rw [collideSteps_succ]
    rcases hk : (collideSteps o s k).entities.get? k with _ | entity
    · have hsk : s.entities.get? k = none := by rw [← hget k (le_refl k), hk]
      have hlen : s.entities.length ≤ k := by
        by_contra hlt
        push_neg at hlt
        rw [List.get?_eq_get hlt] at hsk
        simp at hsk
      have htake : s.entities.take (k + 1) = s.entities.take k := by
        rw [List.take_of_length_le hlen, List.take_of_length_le (Nat.le_succ_of_le hlen)]
      have hstep : collideStep o (collideSteps o s k) k = collideSteps o s k := by
        unfold collideStep
        rw [hk]
      rw [hstep, htake]
      exact ⟨hpos, hsize, hhp, fun j hj => hget j (Nat.le_of_succ_le hj), hvel⟩
    · have hsk : s.entities.get? k = some entity := by rw [← hget k (le_refl k), hk]
      have hmem : entity ∈ s.entities := List.get?_mem hsk
      obtain ⟨htype, hum⟩ := H entity hmem
      have hsk2 : s.entities[k]? = some entity := by
        rw [← List.get?_eq_getElem?]; exact hsk
      have htake : s.entities.take (k + 1) = s.entities.take k ++ [entity] := by
        rw [List.take_succ, hsk2]
        rfl
      have hcnt : ((s.entities.take (k + 1)).filter (fun e => isColliding s.player e)).length =
          ((s.entities.take k).filter (fun e => isColliding s.player e)).length +
          (if isColliding s.player entity then 1 else 0) := by
        rw [htake, List.filter_append, List.length_append]
        by_cases hcol : isColliding s.player entity <;> simp [hcol]
      have hne_pw : ¬ entity.type = EType.powerup := by
        rcases htype with ht | ht <;> simp [ht]
      have hne_bl : ¬ entity.type = EType.bullet := by
        rcases htype with ht | ht <;> simp [ht]
      have hcol_eq : isColliding (collideSteps o s k).player entity =
          isColliding s.player entity :=
        isColliding_player_congr _ _ _ hpos hsize
      unfold collideStep
      rw [hk]
      dsimp only
      rw [if_neg (by simp [hum])]
      rw [if_neg hne_pw, if_neg hne_bl, if_pos htype]
      by_cases hcol : isColliding s.player entity
      · rw [if_pos (by rw [hcol_eq]; exact hcol)]
        dsimp only
        refine ⟨hpos, hsize, ?_, ?_, fun _ => rfl⟩
        · rw [hcnt]
          simp [hcol, hhp]
          push_cast
          ring
        · intro j hj
          split
          · rw [get?_set_entity]
            rw [if_neg (by omega)]
            exact hget j (by omega)
          · exact hget j (by omega)
      · rw [if_neg (by rw [hcol_eq]; exact hcol)]
        rw [hcnt]
        simp only [hcol, if_false]
        exact ⟨hpos, hsize, by simpa using hhp, fun j hj => hget j (by omega),
          by simpa using hvel⟩



theorem collideSteps_entities_id (o : Oracle) (s : CState)
    (H : ∀ e ∈ s.entities, e.type = EType.enemy ∧ e.markedForDeletion = false) :
    ∀ k, (collideSteps o s k).entities = s.entities := by
  intro k
  induction k with
  | zero => rfl
  | succ k ih =>
    rw [collideSteps_succ]
    rcases hk : (collideSteps o s k).entities.get? k with _ | entity
    · unfold collideStep
      rw [hk]
      exact ih
    · have hsk : s.entities.get? k = some entity := by rw [← ih, hk]
      obtain ⟨htype, hum⟩ := H entity (List.get?_mem hsk)
      unfold collideStep
      rw [hk]
      dsimp only
      rw [if_neg (by simp [hum])]
      rw [if_neg (by simp [htype]), if_neg (by simp [htype]), if_pos (Or.inl htype)]
      split
      · dsimp only
        rw [if_neg (by simp [htype])]
        exact ih
      · exact ih

/-! ### Claim C9 -/

/-- C9: there is no post-hit invulnerability.  Over a collision phase whose entity list
consists of live enemies and boss projectiles, the player loses exactly 10 hp for every
entity whose AABB overlaps the player, the player's position is untouched (so the same
overlap persists into the next tick), the knockback is re-applied (vel.y ends at -5)
whenever at least one overlap exists, and with persistent enemies (no projectiles) the
entity list itself is unchanged, so an enemy left in overlap drains another 10 hp on
every consecutive tick's phase. -/
theorem c9_damage_per_overlap (o : Oracle) (s : CState)
    (H : ∀ e ∈ s.entities, (e.type = EType.enemy ∨ e.type = EType.boss_projectile) ∧
      e.markedForDeletion = false) :
    (collisionPhase o s).player.hp = s.player.hp -
      10 * ((s.entities.filter (fun e => isColliding s.player e)).length : Int) ∧
    (collisionPhase o s).player.pos = s.player.pos ∧
    (0 < (s.entities.filter (fun e => isColliding s.player e)).length →
      (collisionPhase o s).player.vel.y = -5) ∧
    ((∀ e ∈ s.entities, e.type = EType.enemy) → (collisionPhase o s).entities = s.entities) := by
  obtain ⟨hpos, hsize, hhp, hget, hvel⟩ :=
    collideSteps_player_damage o s H s.entities.length
  rw [List.take_length] at hhp hvel
  refine ⟨hhp, hpos, hvel, fun henemy => ?_⟩
  exact collideSteps_entities_id o s (fun e he => ⟨henemy e he, (H e he).2⟩) s.entities.length

/-- C9 witness: one live runner overlapping the player: one phase drains exactly 10 hp,
leaves the position unchanged and sets the knockback vel.y = -5. -/
theorem c9_damage_per_overlap_witness :
    (collisionPhase oracle0 ⟨farPlayer, [{ enemyA3 with pos := ⟨500, 20⟩ }], 100, false, [], 0⟩
      ).player.hp = farPlayer.hp - 10 *
      (([{ enemyA3 with pos := ⟨500, 20⟩ }].filter
        (fun e => isColliding farPlayer e)).length : Int) ∧
    (collisionPhase oracle0 ⟨farPlayer, [{ enemyA3 with pos := ⟨500, 20⟩ }], 100, false, [], 0⟩
      ).player.vel.y = -5 := by
  have h := c9_damage_per_overlap oracle0
    ⟨farPlayer, [{ enemyA3 with pos := ⟨500, 20⟩ }], 100, false, [], 0⟩ (by decide)
  exact ⟨h.1, h.2.2.1 (by decide)⟩

theorem hitTarget_score (o : Oracle) (b t : Entity) (st : HitSt) :
    st.score ≤ (hitTarget o b t st).2.2.score := by
  unfold hitTarget
  dsimp only
  repeat' split
  all_goals dsimp only
  all_goals omega

theorem bulletSweep_score_mono (o : Oracle) (b : Entity) (ts : List Entity) (st : HitSt) :
    st.score ≤ (bulletSweep o b ts st).2.2.score := by
  induction ts generalizing b st with
  | nil => exact le_refl _
  | cons t rest ih =>
    unfold bulletSweep
    dsimp only
    split
    · rcases hh : hitTarget o b t st with ⟨b1, t1, st1⟩
      have h1 : st.score ≤ st1.score := by
        have := hitTarget_score o b t st
        rw [hh] at this; exact this
      exact le_trans h1 (ih b1 st1)
    · exact ih b st

theorem collideStep_score_mono (o : Oracle) (s : CState) (i : Nat) :
    s.score ≤ (collideStep o s i).score := by
  unfold collideStep
  rcases hk : s.entities.get? i with _ | entity
  · exact le_refl _
  · dsimp only
    split
    · exact le_refl _
    · split
      · split
        · dsimp only; omega
        · exact le_refl _
      · split
        · rcases hbs : bulletSweep o entity s.entities
            ⟨s.score, s.bossActive, s.parts, s.rngIx⟩ with ⟨b1, ts1, st1⟩
          have h1 : s.score ≤ st1.score := by
            have := bulletSweep_score_mono o entity s.entities
              ⟨s.score, s.bossActive, s.parts, s.rngIx⟩
            rw [hbs] at this; exact this
          dsimp only
          exact h1
        · split
          · split
            · dsimp only; exact le_refl _
            · exact le_refl _
          · exact le_refl _

theorem collisionPhase_score_mono (o : Oracle) (s : CState) :
    s.score ≤ (collisionPhase o s).score := by
  unfold collisionPhase collideSteps
  exact foldl_inv (collideStep o) (fun x => s.score ≤ x.score)
    (fun a b ha => le_trans ha (collideStep_score_mono o a b))
    (List.range s.entities.length) s (le_refl _)

/-! ### Claim C10 -/

/-- C10: within a run the score never decreases across a tick: the only writes are the
+500 powerup pickup, the +100 enemy kill and the +5000 boss kill in the collision
phase. -/
theorem c10_score_monotone (o : Oracle) (w : World) : w.score ≤ (tick o w).score := by
  unfold tick
  split
  · exact le_refl _
  · exact collisionPhase_score_mono o _


theorem resolvePlatform_hp (e p : Entity) : (resolvePlatform e p).hp = e.hp := by
  unfold resolvePlatform; split <;> rfl

theorem resolvePlatforms_hp (ps : List Entity) (e : Entity) :
    (resolvePlatforms ps e).hp = e.hp := by
  induction ps generalizing e with
  | nil => rfl
  | cons p t ih =>
    show (resolvePlatforms t (resolvePlatform e p)).hp = e.hp
    rw [ih, resolvePlatform_hp]

theorem bossAI_hp (o : Oracle) (c : Ctx) (n : Nat) (e : Entity) :
    (bossAI o c n e).1.hp = e.hp := by
  unfold bossAI
  dsimp only
  repeat' split
  all_goals rfl

theorem jumperAI_hp (o : Oracle) (c : Ctx) (n : Nat) (e : Entity) :
    (jumperAI o c n e).1.hp = e.hp := by
  unfold jumperAI
  dsimp only
  repeat' split
  all_goals rfl

theorem jumperAI_subtype (o : Oracle) (c : Ctx) (n : Nat) (e : Entity) :
    (jumperAI o c n e).1.subtype = e.subtype := by
  unfold jumperAI
  dsimp only
  repeat' split
  all_goals rfl

theorem droneAI_subtype (o : Oracle) (c : Ctx) (n : Nat) (e : Entity) :
    (droneAI o c n e).1.subtype = e.subtype := by
  rw [droneAI_fst]

theorem enemyAI_hp (o : Oracle) (c : Ctx) (n : Nat) (e : Entity) :
    (enemyAI o c n e).1.hp = e.hp := by
  by_cases hb : e.subtype = some EnemyType.boss
  · rcases hB : bossAI o c n e with ⟨e1, sp1, n1⟩
    have h1 : e1.hp = e.hp := by
      have := bossAI_hp o c n e; rw [hB] at this; exact this
    have hs1 : e1.subtype = some EnemyType.boss := by
      have := bossAI_subtype o c n e; rw [hB] at this; rw [this]; exact hb
    unfold enemyAI
    simp only [hb, hB]
    simp [hs1]
    split <;> split <;> simp [h1]
  · by_cases hd : e.subtype = some EnemyType.drone
    · rcases hD : droneAI o c n e with ⟨e1, sp1, n1⟩
      have h1 : e1.hp = e.hp := by
        have : (droneAI o c n e).1.hp = e.hp := by rw [droneAI_fst]
        rw [hD] at this; exact this
      have hs1 : e1.subtype = some EnemyType.drone := by
        have := droneAI_subtype o c n e; rw [hD] at this; rw [this]; exact hd
      unfold enemyAI
      simp only [hb, hd, hD]
      simp [hs1]
      split <;> split <;> simp [h1]
    · by_cases hj : e.subtype = some EnemyType.jumper
      · rcases hJ : jumperAI o c n e with ⟨e1, n1⟩
        have h1 : e1.hp = e.hp := by
          have := jumperAI_hp o c n e; rw [hJ] at this; exact this
        unfold enemyAI
        simp only [hb, hd, hj, hJ]
        simp
        repeat' split
        all_goals simp [h1, resolvePlatforms_hp]
      · unfold enemyAI
        simp only [hb, hd, hj]
        simp
        repeat' split
        all_goals simp [resolvePlatforms_hp]

theorem powerupAI_hp (o : Oracle) (c : Ctx) (e : Entity) :
    (powerupAI o c e).hp = e.hp := by
  unfold powerupAI
  dsimp only
  split <;> rfl

theorem projMove_hp (cw : ℚ) (e : Entity) : (projMove cw e).hp = e.hp := by
  unfold projMove
  dsimp only
  repeat' split
  all_goals rfl

theorem particleMove_hp (e : Entity) : (particleMove e).hp = e.hp := by
  unfold particleMove
  dsimp only
  repeat' split
  all_goals rfl

theorem updateEntity_hp (o : Oracle) (c : Ctx) (n : Nat) (e : Entity) :
    (updateEntity o c n e).1.hp = e.hp := by
  have hg : (applyGravity e).hp = e.hp := (applyGravity_fields e).2.2.2.2.2.2.1
  unfold updateEntity
  split
  · rfl
  · dsimp only
    split
    · rw [powerupAI_hp, hg]
    · split
      · rw [enemyAI_hp, hg]
      · split
        · rw [projMove_hp, hg]
        · split
          · rw [particleMove_hp, hg]
          · exact hg


theorem bossAI_spawned_hp (o : Oracle) (c : Ctx) (n : Nat) (e : Entity) :
    ∀ x ∈ (bossAI o c n e).2.1, x.hp = 1 := by
  unfold bossAI
  dsimp only
  repeat' split
  all_goals intro x hx
  all_goals simp at hx
  all_goals first
    | (rcases hx with h | h <;> (subst h; rfl))
    | (subst hx; rfl)

theorem droneAI_spawned_hp (o : Oracle) (c : Ctx) (n : Nat) (e : Entity) :
    ∀ x ∈ (droneAI o c n e).2.1, x.hp = 1 := by
  unfold droneAI
  dsimp only
  repeat' split
  all_goals intro x hx
  all_goals simp at hx
  all_goals (try (subst hx; rfl))

theorem enemyAI_spawned_hp (o : Oracle) (c : Ctx) (n : Nat) (e : Entity) :
    ∀ x ∈ (enemyAI o c n e).2.1, x.hp = 1 := by
  by_cases hb : e.subtype = some EnemyType.boss
  · rcases hB : bossAI o c n e with ⟨e1, sp1, n1⟩
    have h1 : ∀ x ∈ sp1, x.hp = 1 := by
      have := bossAI_spawned_hp o c n e; rw [hB] at this; exact this
    unfold enemyAI
    simp only [hb, hB]
    (try dsimp only)
    intro x hx
    refine h1 x ?_
    revert hx
    repeat' split
    all_goals first | exact id | simp_all
  · by_cases hd : e.subtype = some EnemyType.drone
    · rcases hD : droneAI o c n e with ⟨e1, sp1, n1⟩
      have h1 : ∀ x ∈ sp1, x.hp = 1 := by
        have := droneAI_spawned_hp o c n e; rw [hD] at this; exact this
      unfold enemyAI
      simp only [hb, hd, hD]
      (try dsimp only)
      intro x hx
      refine h1 x ?_
      revert hx
      repeat' split
      all_goals first | exact id | simp_all
    · by_cases hj : e.subtype = some EnemyType.jumper
      · rcases hJ : jumperAI o c n e with ⟨e1, n1⟩
        unfold enemyAI
        simp only [hb, hd, hj, hJ]
        (try dsimp only)
        intro x hx
        revert hx
        repeat' split
        all_goals first | simp_all | simp
      · unfold enemyAI
        simp only [hb, hd, hj]
        (try dsimp only)
        intro x hx
        revert hx
        repeat' split
        all_goals first | simp_all | simp

theorem updateEntity_spawned_hp (o : Oracle) (c : Ctx) (n : Nat) (e : Entity) :
    ∀ x ∈ (updateEntity o c n e).2.1, x.hp = 1 := by
  unfold updateEntity
  split
  · simp
  · dsimp only
    split
    · simp
    · split
      · exact enemyAI_spawned_hp o c n _
      · split
        · simp
        · split <;> simp

theorem updateEntities_hp (o : Oracle) (c : Ctx) (es : List Entity) (n : Nat)
    (H : ∀ e ∈ es, 0 < e.hp) :
    (∀ x ∈ (updateEntities o c es n).1, 0 < x.hp) ∧
    (∀ x ∈ (updateEntities o c es n).2.1, 0 < x.hp) := by
  induction es generalizing n with
  | nil => simp [updateEntities]
  | cons e rest ih =>
    rcases hu : updateEntity o c n e with ⟨e1, sp1, n1⟩
    have he1 : e1.hp = e.hp := by
      have := updateEntity_hp o c n e; rw [hu] at this; exact this
    have hsp : ∀ x ∈ sp1, x.hp = 1 := by
      have := updateEntity_spawned_hp o c n e; rw [hu] at this; exact this
    have hrest := ih n1 (fun x hx => H x (List.mem_cons_of_mem _ hx))
    unfold updateEntities
    rw [hu]
    dsimp only
    constructor
    · intro x hx
      rcases List.mem_cons.1 hx with h | h
      · subst h; rw [he1]; exact H e (List.mem_cons_self _ _)
      · exact hrest.1 x h
    · intro x hx
      rcases List.mem_append.1 hx with h | h
      · rw [hsp x h]; exact Int.one_pos
      · exact hrest.2 x h

theorem shootingPhase_hp (o : Oracle) (fc : Nat) (p : Entity) (fire : Bool) (n : Nat) :
    ∀ x ∈ (shootingPhase o fc p fire n).1, x.hp = 1 := by
  intro x hx
  unfold shootingPhase at hx
  split at hx
  · dsimp only at hx
    split at hx
    · split at hx
      · simp at hx
        rcases hx with h | h | h <;> subst h <;> rfl
      · split at hx
        · simp at hx; subst hx; rfl
        · simp at hx; subst hx; rfl
    · simp at hx
  · simp at hx


theorem spawnEnemy_hp (o : Oracle) (n : Nat) (cw ch : ℚ) (bA : Bool) (e2 : Entity)
    (he : (spawnEnemy o n cw ch bA).1 = some e2) : 0 < e2.hp := by
  unfold spawnEnemy at he
  split at he
  · simp at he
  · dsimp only at he
    rw [Option.some.injEq] at he
    subst he
    dsimp only
    repeat' split
    all_goals decide

theorem spawnBossStep_hp (score : Int) (bA : Bool) (es : List Entity) (cw ch : ℚ)
    (H : ∀ e ∈ es, 0 < e.hp) :
    ∀ x ∈ (spawnBossStep score bA es cw ch).1, 0 < x.hp := by
  intro x hx
  unfold spawnBossStep at hx
  split at hx
  · rcases List.mem_append.1 hx with h | h
    · exact H x h
    · simp at h
      subst h
      norm_num [bossEntity]
  · exact H x hx

theorem spawnEnemyStep_hp (o : Oracle) (fc : Nat) (es : List Entity) (bA : Bool)
    (cw ch : ℚ) (n : Nat) (H : ∀ e ∈ es, 0 < e.hp) :
    ∀ x ∈ (spawnEnemyStep o fc es bA cw ch n).1, 0 < x.hp := by
  intro x hx
  unfold spawnEnemyStep at hx
  split at hx
  · dsimp only at hx
    split at hx
    · rename_i hmatch
      rcases List.mem_append.1 hx with h | h
      · exact H x h
      · simp at h
        subst h
        exact spawnEnemy_hp o n cw ch bA _ hmatch
    · exact H x hx
  · exact H x hx

theorem spawnPowerupStep_hp (o : Oracle) (fc : Nat) (es : List Entity) (bA : Bool)
    (cw : ℚ) (n : Nat) (H : ∀ e ∈ es, 0 < e.hp) :
    ∀ x ∈ (spawnPowerupStep o fc es bA cw n).1, 0 < x.hp := by
  intro x hx
  unfold spawnPowerupStep at hx
  split at hx
  · rcases List.mem_append.1 hx with h | h
    · exact H x h
    · simp at h
      subst h
      norm_num [spawnPowerup]
  · exact H x hx

theorem spawnPhase_hp (o : Oracle) (fc : Nat) (score : Int) (bA : Bool) (es : List Entity)
    (cw ch : ℚ) (n : Nat) (H : ∀ e ∈ es, 0 < e.hp) :
    ∀ x ∈ (spawnPhase o fc score bA es cw ch n).1, 0 < x.hp := by
  unfold spawnPhase
  dsimp only
  exact spawnPowerupStep_hp o fc _ _ cw _
    (spawnEnemyStep_hp o fc _ _ cw ch n (spawnBossStep_hp score bA es cw ch H))

theorem damagedTarget_ok (t : Entity) :
    0 < (damagedTarget t).hp ∨ (damagedTarget t).markedForDeletion = true := by
  unfold damagedTarget
  split
  · right; rfl
  · left
    rename_i h
    dsimp only
    omega

theorem particleBurst_hp (o : Oracle) (x y : ℚ) (color : String) (k n : Nat) :
    ∀ p ∈ (particleBurst o x y color k n).1, p.hp = 1 := by
  induction k generalizing n with
  | zero => simp [particleBurst]
  | succ k ih =>
    unfold particleBurst
    dsimp only
    intro p hp
    rcases List.mem_cons.1 hp with h | h
    · subst h; rfl
    · exact ih _ p h

theorem bossDeathBurst_hp (o : Oracle) (t : Entity) (k n : Nat) :
    ∀ p ∈ (bossDeathBurst o t k n).1, p.hp = 1 := by
  induction k generalizing n with
  | zero => simp [bossDeathBurst]
  | succ k ih =>
    unfold bossDeathBurst
    dsimp only
    intro p hp
    rcases List.mem_cons.1 hp with h | h
    · subst h; rfl
    · exact ih _ p h

theorem hitTarget_parts (o : Oracle) (b t : Entity) (st : HitSt) :
    ∀ x ∈ (hitTarget o b t st).2.2.parts, x ∈ st.parts ∨ x.hp = 1 := by
  unfold hitTarget
  dsimp only
  intro x hx
  revert hx
  repeat' split
  all_goals dsimp only
  all_goals intro hx
  · rcases List.mem_append.1 hx with h | h
    · rcases List.mem_append.1 h with h2 | h2
      · exact Or.inl h2
      · simp at h2; subst h2; exact Or.inr rfl
    · exact Or.inr (bossDeathBurst_hp o _ 50 _ x h)
  all_goals rcases List.mem_append.1 hx with h | h
  all_goals first
    | exact Or.inl h
    | (simp at h; subst h; exact Or.inr rfl)

theorem bulletSweep_bullet_hp (o : Oracle) (b : Entity) (ts : List Entity) (st : HitSt) :
    (bulletSweep o b ts st).1.hp = b.hp := by
  induction ts generalizing b st with
  | nil => rfl
  | cons t rest ih =>
    unfold bulletSweep
    dsimp only
    split
    · rcases hh : hitTarget o b t st with ⟨b1, t1, st1⟩
      have hb1 : b1 = bulletAfterHit b := by
        have := hitTarget_bullet o b t st
        rw [hh] at this; exact this
      dsimp only
      rw [ih b1 st1, hb1, (bulletAfterHit_fields b).2.2.2]
    · exact ih b st

theorem bulletSweep_parts (o : Oracle) (b : Entity) (ts : List Entity) (st : HitSt) :
    ∀ x ∈ (bulletSweep o b ts st).2.2.parts, x ∈ st.parts ∨ x.hp = 1 := by
  induction ts generalizing b st with
  | nil => exact fun x hx => Or.inl hx
  | cons t rest ih =>
    unfold bulletSweep
    dsimp only
    split
    · rcases hh : hitTarget o b t st with ⟨b1, t1, st1⟩
      have hp1 : ∀ x ∈ st1.parts, x ∈ st.parts ∨ x.hp = 1 := by
        have := hitTarget_parts o b t st
        rw [hh] at this; exact this
      intro x hx
      rcases ih b1 st1 x hx with h | h
      · exact hp1 x h
      · exact Or.inr h
    · exact ih b st


theorem bulletSweep_entities_ok (o : Oracle) (b : Entity) (ts : List Entity) (st : HitSt)
    (H : ∀ t ∈ ts, 0 < t.hp ∨ t.markedForDeletion = true) :
    ∀ x ∈ (bulletSweep o b ts st).2.1, 0 < x.hp ∨ x.markedForDeletion = true := by
  intro x hx
  rw [bulletSweep_targets] at hx
  rcases List.mem_map.1 hx with ⟨t, ht, heq⟩
  subst heq
  split
  · exact damagedTarget_ok t
  · exact H t ht

/-- The positivity-or-flagged invariant of the collision phase. -/
def CInv (s : CState) : Prop :=
  (∀ e ∈ s.entities, 0 < e.hp ∨ e.markedForDeletion = true) ∧ (∀ e ∈ s.parts, 0 < e.hp)

theorem collideStep_inv (o : Oracle) (s : CState) (i : Nat) (h : CInv s) :
    CInv (collideStep o s i) := by
  obtain ⟨h1, h2⟩ := h
  unfold collideStep
  rcases hk : s.entities.get? i with _ | entity
  · exact ⟨h1, h2⟩
  · have hmem : entity ∈ s.entities := List.get?_mem hk
    dsimp only
    split
    · exact ⟨h1, h2⟩
    · split
      · split
        · refine ⟨fun x hx => ?_, fun x hx => ?_⟩
          · rcases mem_of_mem_set hx with h | h
            · subst h; exact Or.inr rfl
            · exact h1 x h
          · rcases List.mem_append.1 hx with h | h
            · exact h2 x h
            · rw [particleBurst_hp o _ _ _ 10 _ x h]; exact Int.one_pos
        · exact ⟨h1, h2⟩
      · split
        · rcases hbs : bulletSweep o entity s.entities
            ⟨s.score, s.bossActive, s.parts, s.rngIx⟩ with ⟨b1, ts1, st1⟩
          rename_i hum _ _
          have hbhp : b1.hp = entity.hp := by
            have := bulletSweep_bullet_hp o entity s.entities
              ⟨s.score, s.bossActive, s.parts, s.rngIx⟩
            rw [hbs] at this; exact this
          have hts1 : ∀ x ∈ ts1, 0 < x.hp ∨ x.markedForDeletion = true := by
            have := bulletSweep_entities_ok o entity s.entities
              ⟨s.score, s.bossActive, s.parts, s.rngIx⟩ h1
            rw [hbs] at this; exact this
          have hparts : ∀ x ∈ st1.parts, x ∈ s.parts ∨ x.hp = 1 := by
            have := bulletSweep_parts o entity s.entities
              ⟨s.score, s.bossActive, s.parts, s.rngIx⟩
            rw [hbs] at this; exact this
          refine ⟨fun x hx => ?_, fun x hx => ?_⟩
          · rcases mem_of_mem_set hx with h | h
            · subst h
              rcases h1 entity hmem with hh | hh
              · exact Or.inl (by rw [hbhp]; exact hh)
              · exact absurd hh (by simpa using hum)
            · exact hts1 x h
          · rcases hparts x hx with h | h
            · exact h2 x h
            · rw [h]; exact Int.one_pos
        · split
          · split
            · refine ⟨fun x hx => ?_, fun x hx => ?_⟩
              · revert hx
                dsimp only
                split
                · intro hx
                  rcases mem_of_mem_set hx with h | h
                  · subst h; exact Or.inr rfl
                  · exact h1 x h
                · intro hx
                  exact h1 x hx
              · rcases List.mem_append.1 hx with h | h
                · exact h2 x h
                · simp at h; subst h; exact Int.one_pos
            · exact ⟨h1, h2⟩
          · exact ⟨h1, h2⟩

theorem collisionPhase_inv (o : Oracle) (s : CState) (h : CInv s) :
    CInv (collisionPhase o s) := by
  unfold collisionPhase collideSteps
  exact foldl_inv (collideStep o) CInv (fun a b ha => collideStep_inv o a b ha)
    (List.range s.entities.length) s h

theorem purge_hp (o : Oracle) (S : CState) (h1 : ∀ e ∈ S.entities, 0 < e.hp)
    (h2 : ∀ e ∈ S.parts, 0 < e.hp) :
    ∀ x ∈ ((collisionPhase o S).entities ++ (collisionPhase o S).parts).filter
      (fun e => !e.markedForDeletion), 0 < x.hp := by
  have hin := collisionPhase_inv o S ⟨fun e he => Or.inl (h1 e he), h2⟩
  intro x hx
  rw [List.mem_filter] at hx
  obtain ⟨hmem, hpred⟩ := hx
  have hmark : x.markedForDeletion = false := by simpa using hpred
  rcases List.mem_append.1 hmem with h | h
  · rcases hin.1 x h with hh | hh
    · exact hh
    · rw [hh] at hmark; cases hmark
  · exact hin.2 x h


/-! ### Claim C4 -/

/-- The C4 counterexample player: 5 hp, standing inside a live runner. -/
def lowHpPlayer : Entity :=
  { type := .player, weaponType := some .rifle, pos := ⟨100, 100⟩, vel := ⟨0, 0⟩,
    size := ⟨32, 48⟩, color := "#3b82f6", hp := 5, maxHp := 100,
    markedForDeletion := false, direction := 1 }

/-- The C4 counterexample enemy: a motionless live runner overlapping the player. -/
def overlappingRunner : Entity :=
  { type := .enemy, subtype := some .runner, pos := ⟨100, 100⟩, vel := ⟨0, 0⟩,
    size := ⟨32, 32⟩, color := "#22c55e", hp := 3, maxHp := 3,
    markedForDeletion := false, direction := -1, attackTimer := some 0 }

/-- The world of the C4 player counterexample. -/
def cw4 : World :=
  { frameCount := 0, bossActive := false, score := 0, player := lowHpPlayer,
    entities := [overlappingRunner], platforms := [], canvasW := 800, canvasH := 600,
    input := noInput, rngIx := 0, gameOver := false }

/-- C4 counterexample: the player ends this tick with hp = -5 (strictly negative) and
no removal flag; the tick only raises the game-over signal.  The player therefore
crosses the tick boundary with hp < 0, contrary to the claim's "no entity (the player
included)". -/
theorem c4_player_negative_hp :
    (tick oracle0 cw4).player.hp = -5 ∧
    (tick oracle0 cw4).player.markedForDeletion = false ∧
    (tick oracle0 cw4).gameOver = true := by decide

/-- C4 (amended): every entity in the entity set ends every tick with strictly positive
hp (an entity whose hp reaches 0 or below is flagged in the same hit and purged at the
end of the tick); the player, however, is not part of the purge and may end a tick with
hp ≤ 0 and no removal flag — in exactly those ticks the game-over signal fires. -/
theorem c4_entities_hp_positive (o : Oracle) (w : World)
    (H : ∀ e ∈ w.entities, 0 < e.hp) :
    (∀ e ∈ (tick o w).entities, 0 < e.hp) ∧
    (w.gameOver = false → ((tick o w).gameOver = true ↔ (tick o w).player.hp ≤ 0)) := by
  unfold tick
  split
  · rename_i hg
    refine ⟨fun e he => H e he, fun hf => ?_⟩
    rw [hg] at hf
    cases hf
  · dsimp only
    constructor
    · refine purge_hp o _ ?_ (fun e he => absurd he (List.not_mem_nil e))
      intro e he
      rcases List.mem_append.1 he with h | h
      · refine (updateEntities_hp o _ _ _ ?_).1 e h
        refine spawnPhase_hp o _ _ _ _ _ _ _ ?_
        intro x hx
        rcases List.mem_append.1 hx with h2 | h2
        · exact H x h2
        · rw [shootingPhase_hp o _ _ _ _ x h2]; exact Int.one_pos
      · refine (updateEntities_hp o _ _ _ ?_).2 e h
        refine spawnPhase_hp o _ _ _ _ _ _ _ ?_
        intro x hx
        rcases List.mem_append.1 hx with h2 | h2
        · exact H x h2
        · rw [shootingPhase_hp o _ _ _ _ x h2]; exact Int.one_pos
    · intro hf
      exact decide_eq_true_iff

/-- C4 witness: the amended statement evaluated on the counterexample world (one live
runner in the set): every surviving entity has positive hp, and the game-over signal of
that tick is exactly the player's hp ≤ 0 condition. -/
theorem c4_entities_hp_positive_witness :
    (∀ e ∈ (tick oracle0 cw4).entities, 0 < e.hp) ∧
    ((tick oracle0 cw4).gameOver = true ↔ (tick oracle0 cw4).player.hp ≤ 0) := by
  refine ⟨(c4_entities_hp_positive oracle0 cw4 (by decide)).1,
    (c4_entities_hp_positive oracle0 cw4 (by decide)).2 (by decide)⟩


theorem spawnEnemy_bossActive (o : Oracle) (n : Nat) (cw ch : ℚ) :
    spawnEnemy o n cw ch true = (none, n) := by
  unfold spawnEnemy
  simp

theorem spawnPhase_bossActive (o : Oracle) (fc : Nat) (score : Int) (es : List Entity)
    (cw ch : ℚ) (n : Nat) : spawnPhase o fc score true es cw ch n = (es, true, n) := by
  unfold spawnPhase spawnBossStep spawnEnemyStep spawnPowerupStep
  simp [spawnEnemy_bossActive]

theorem spawnPhase_boss_fire (o : Oracle) (fc : Nat) (score : Int) (es : List Entity)
    (cw ch : ℚ) (n : Nat) (h2 : score > BOSS_SPAWN_SCORE)
    (h3 : (es.filter (fun e => decide (e.subtype = some EnemyType.boss))).length = 0) :
    spawnPhase o fc score false es cw ch n = (es ++ [bossEntity cw ch], true, n) := by
  unfold spawnPhase spawnBossStep spawnEnemyStep spawnPowerupStep
  simp [h2, h3, spawnEnemy_bossActive]

/-! ### Claim C2 -/

/-- The boss of the C2/C6 counterexample runs: phase 1, one hit point left. -/
def dyingBoss : Entity :=
  { type := .enemy, subtype := some .boss, pos := ⟨500, 300⟩, vel := ⟨-1, 0⟩,
    size := ⟨120, 200⟩, color := "#ef4444", hp := 1, maxHp := 150,
    bossPhase := some 1, markedForDeletion := false, direction := -1, attackTimer := some 0 }

/-- A rifle bullet about to hit the dying boss. -/
def killingBullet : Entity :=
  { type := .bullet, pos := ⟨490, 350⟩, vel := ⟨12, 0⟩, size := ⟨8, 4⟩, color := "#facc15",
    hp := 1, maxHp := 1, markedForDeletion := false, direction := 1, penetration := some 1 }

/-- The player far from the boss fight. -/
def idlePlayer : Entity :=
  { type := .player, weaponType := some .rifle, pos := ⟨100, 10⟩, vel := ⟨0, 0⟩,
    size := ⟨32, 48⟩, color := "#3b82f6", hp := 100, maxHp := 100,
    markedForDeletion := false, direction := 1 }

/-- The C2 counterexample world: mid-boss-fight, the boss one hit from death,
score already far over the threshold. -/
def cw2 : World :=
  { frameCount := 7, bossActive := true, score := 5000, player := idlePlayer,
    entities := [dyingBoss, killingBullet], platforms := [], canvasW := 800, canvasH := 600,
    input := noInput, rngIx := 0, gameOver := false }

/-- C2 counterexample: the run starts with one boss; on the first tick the bullet kills
it (score rises to 10000, the flag clears, the boss is purged); on the very next tick a
second boss is created — the same run spawns a boss again after the first one's death,
with the score still above the threshold. -/
theorem c2_second_boss_same_run :
    (cw2.entities.filter (fun e => decide (e.subtype = some EnemyType.boss))).length = 1 ∧
    ((tick oracle0 cw2).entities.filter
      (fun e => decide (e.subtype = some EnemyType.boss))).length = 0 ∧
    (tick oracle0 cw2).bossActive = false ∧
    (tick oracle0 cw2).score = 10000 ∧
    ((tick oracle0 (tick oracle0 cw2)).entities.filter
      (fun e => decide (e.subtype = some EnemyType.boss))).length = 1 ∧
    (tick oracle0 (tick oracle0 cw2)).bossActive = true := by decide

/-- C2 (amended): the spawner creates a boss on every tick whose spawn phase starts
with the flag down, the score above the threshold and no boss entity in the list —
regardless of how many bosses the run has already had.  Because killing a boss clears
the flag, purges the boss and leaves the score above the threshold, the very next
tick's spawn phase satisfies these conditions and a second boss spawns. -/
theorem c2_boss_spawn_condition (o : Oracle) (fc : Nat) (score : Int) (es : List Entity)
    (cw ch : ℚ) (n : Nat) (h2 : score > BOSS_SPAWN_SCORE)
    (h3 : (es.filter (fun e => decide (e.subtype = some EnemyType.boss))).length = 0) :
    ((spawnPhase o fc score false es cw ch n).1.filter
      (fun e => decide (e.subtype = some EnemyType.boss))).length = 1 ∧
    (spawnPhase o fc score false es cw ch n).2.1 = true := by
  rw [spawnPhase_boss_fire o fc score es cw ch n h2 h3]
  dsimp only
  rw [List.filter_append]
  simp [h3, bossEntity]

/-- C2 witness: the amended spawn condition evaluated on an empty entity list with a
score of 2000. -/
theorem c2_boss_spawn_condition_witness :
    ((spawnPhase oracle0 8 2000 false [] 800 600 0).1.filter
      (fun e => decide (e.subtype = some EnemyType.boss))).length = 1 ∧
    (spawnPhase oracle0 8 2000 false [] 800 600 0).2.1 = true :=
  c2_boss_spawn_condition oracle0 8 2000 [] 800 600 0 (by decide) (by decide)

/-! ### Claim C6 -/

/-- The C6 counterexample world: as `cw2` but timed so that the tick after the boss's
death is an enemy-cadence frame (frame 120). -/
def cw6 : World :=
  { frameCount := 118, bossActive := true, score := 5000, player := idlePlayer,
    entities := [dyingBoss, killingBullet], platforms := [], canvasW := 800, canvasH := 600,
    input := noInput, rngIx := 0, gameOver := false }

/-- C6 counterexample: the boss dies on frame 119 and the flag clears, but on frame 120
— the next frame count divisible by the enemy cadence — no ordinary enemy spawns:
the boss respawn check runs first, re-sets the flag, and `spawnEnemy` is suppressed
again.  Ordinary spawning does not resume. -/
theorem c6_spawn_does_not_resume :
    (tick oracle0 cw6).bossActive = false ∧
    (tick oracle0 (tick oracle0 cw6)).frameCount % 120 = 0 ∧
    ((tick oracle0 (tick oracle0 cw6)).entities.filter
      (fun e => decide (e.type = EType.enemy ∧ e.subtype ≠ some EnemyType.boss))).length = 0 ∧
    ((tick oracle0 (tick oracle0 cw6)).entities.filter
      (fun e => decide (e.subtype = some EnemyType.boss))).length = 1 := by decide

/-- C6 (amended): while the boss-active flag is true the spawn phase adds no entity at
all (no ordinary enemy, no powerup, and no further boss); but after the flag is cleared
by a boss death, spawning does not actually resume: with the score above the threshold
and the dead boss purged, the next spawn phase re-creates a boss and re-sets the flag
before the enemy and powerup cadence checks run, so the only entity ever added is the
new boss. -/
theorem c6_mutual_exclusion :
    (∀ (o : Oracle) (fc : Nat) (score : Int) (es : List Entity) (cw ch : ℚ) (n : Nat),
      spawnPhase o fc score true es cw ch n = (es, true, n)) ∧
    (∀ (o : Oracle) (fc : Nat) (score : Int) (es : List Entity) (cw ch : ℚ) (n : Nat),
      score > BOSS_SPAWN_SCORE →
      (es.filter (fun e => decide (e.subtype = some EnemyType.boss))).length = 0 →
      (spawnPhase o fc score false es cw ch n).1 = es ++ [bossEntity cw ch] ∧
      (spawnPhase o fc score false es cw ch n).2.1 = true) := by
  refine ⟨spawnPhase_bossActive, fun o fc score es cw ch n h2 h3 => ?_⟩
  rw [spawnPhase_boss_fire o fc score es cw ch n h2 h3]
  exact ⟨rfl, rfl⟩

/-- C6 witness: the mutual exclusion with the flag up on a one-runner list at an
enemy-cadence frame, and the failed resumption on the empty list. -/
theorem c6_mutual_exclusion_witness :
    spawnPhase oracle0 120 0 true [runnerEx] 800 600 3 = ([runnerEx], true, 3) ∧
    (spawnPhase oracle0 120 2000 false [] 800 600 0).1 = [] ++ [bossEntity 800 600] := by
  exact ⟨c6_mutual_exclusion.1 oracle0 120 0 [runnerEx] 800 600 3,
    (c6_mutual_exclusion.2 oracle0 120 2000 [] 800 600 0 (by decide) (by decide)).1⟩


theorem damagedTarget_pos_size (t : Entity) :
    (damagedTarget t).pos = t.pos ∧ (damagedTarget t).size = t.size := by
  unfold damagedTarget
  split <;> exact ⟨rfl, rfl⟩

theorem isColliding_target_congr (p e1 e2 : Entity) (hpos : e1.pos = e2.pos)
    (hsize : e1.size = e2.size) : isColliding p e1 = isColliding p e2 := by
  unfold isColliding
  rw [hpos, hsize]

theorem bulletSweep_bullet_pos_size (o : Oracle) (b : Entity) (ts : List Entity)
    (st : HitSt) : (bulletSweep o b ts st).1.pos = b.pos ∧
      (bulletSweep o b ts st).1.size = b.size := by
  induction ts generalizing b st with
  | nil => exact ⟨rfl, rfl⟩
  | cons t rest ih =>
    unfold bulletSweep
    dsimp only
    split
    · rcases hh : hitTarget o b t st with ⟨b1, t1, st1⟩
      have hb1 : b1 = bulletAfterHit b := by
        have := hitTarget_bullet o b t st
        rw [hh] at this; exact this
      dsimp only
      obtain ⟨hp1, hs1⟩ := ih b1 st1
      rw [hp1, hs1, hb1, (bulletAfterHit_fields b).1, (bulletAfterHit_fields b).2.1]
      exact ⟨rfl, rfl⟩
    · exact ih b st

theorem collideStep_player_base (o : Oracle) (x : CState) (i : Nat) :
    (collideStep o x i).player.pos = x.player.pos ∧
    (collideStep o x i).player.size = x.player.size ∧
    (collideStep o x i).player.isGrounded = x.player.isGrounded := by
  unfold collideStep
  rcases hk : x.entities.get? i with _ | entity
  · exact ⟨rfl, rfl, rfl⟩
  · dsimp only
    repeat' split
    all_goals exact ⟨rfl, rfl, rfl⟩

theorem collisionPhase_player_base (o : Oracle) (s : CState) :
    (collisionPhase o s).player.pos = s.player.pos ∧
    (collisionPhase o s).player.size = s.player.size ∧
    (collisionPhase o s).player.isGrounded = s.player.isGrounded := by
  unfold collisionPhase collideSteps
  refine foldl_inv (collideStep o)
    (fun x => x.player.pos = s.player.pos ∧ x.player.size = s.player.size ∧
      x.player.isGrounded = s.player.isGrounded)
    (fun a b ha => ?_) (List.range s.entities.length) s ⟨rfl, rfl, rfl⟩
  obtain ⟨h1, h2, h3⟩ := collideStep_player_base o a b
  exact ⟨h1.trans ha.1, h2.trans ha.2.1, h3.trans ha.2.2⟩

theorem collisionPhase_player_vel (o : Oracle) (s : CState)
    (H : ∀ e ∈ s.entities, isColliding s.player e = false) :
    (collisionPhase o s).player.vel = s.player.vel := by
  unfold collisionPhase collideSteps
  refine (foldl_inv (collideStep o)
    (fun x => x.player.pos = s.player.pos ∧ x.player.size = s.player.size ∧
      x.player.vel = s.player.vel ∧ (∀ e ∈ x.entities, isColliding s.player e = false))
    (fun a b ha => ?_) (List.range s.entities.length) s ⟨rfl, rfl, rfl, H⟩).2.2.1
  obtain ⟨h1, h2, h3, h4⟩ := ha
  unfold collideStep
  rcases hk : a.entities.get? b with _ | entity
  · exact ⟨h1, h2, h3, h4⟩
  · have hmem : entity ∈ a.entities := List.get?_mem hk
    have hcol : isColliding a.player entity = false := by
      rw [isColliding_player_congr a.player s.player entity h1 h2]
      exact h4 entity hmem
    dsimp only
    split
    · exact ⟨h1, h2, h3, h4⟩
    · split
      · rw [if_neg (by rw [hcol]; exact Bool.false_ne_true)]
        exact ⟨h1, h2, h3, h4⟩
      · split
        · rcases hbs : bulletSweep o entity a.entities
            ⟨a.score, a.bossActive, a.parts, a.rngIx⟩ with ⟨b1, ts1, st1⟩
          have hbps : b1.pos = entity.pos ∧ b1.size = entity.size := by
            have := bulletSweep_bullet_pos_size o entity a.entities
              ⟨a.score, a.bossActive, a.parts, a.rngIx⟩
            rw [hbs] at this; exact this
          have hts1 : ∀ e2 ∈ ts1, isColliding s.player e2 = false := by
            have hmap : ts1 = a.entities.map (fun t =>
                if t.type = EType.enemy ∧ t.markedForDeletion = false ∧
                  isColliding entity t = true then damagedTarget t else t) := by
              have := bulletSweep_targets o entity a.entities
                ⟨a.score, a.bossActive, a.parts, a.rngIx⟩
              rw [hbs] at this; exact this
            rw [hmap]
            intro e2 he2
            rcases List.mem_map.1 he2 with ⟨t, ht, heq⟩
            subst heq
            split
            · rw [isColliding_target_congr s.player (damagedTarget t) t
                (damagedTarget_pos_size t).1 (damagedTarget_pos_size t).2]
              exact h4 t ht
            · exact h4 t ht
          refine ⟨h1, h2, h3, fun e2 he2 => ?_⟩
          rcases mem_of_mem_set he2 with h | h
          · rw [h, isColliding_target_congr s.player b1 entity hbps.1 hbps.2]
            exact h4 entity hmem
          · exact hts1 e2 h
        · split
          · rw [if_neg (by rw [hcol]; exact Bool.false_ne_true)]
            exact ⟨h1, h2, h3, h4⟩
          · exact ⟨h1, h2, h3, h4⟩


/-! ### Claim C8 -/

/-- A player two pixels above landing on the floor. -/
def fallingPlayer : Entity :=
  { type := .player, weaponType := some .rifle, pos := ⟨100, 510⟩, vel := ⟨0, 2⟩,
    size := ⟨32, 48⟩, color := "#3b82f6", hp := 100, maxHp := 100,
    markedForDeletion := false, direction := 1 }

/-- The floor platform of `initLevel` for an 800 x 600 canvas. -/
def floorPlat : Entity :=
  { type := .platform, pos := ⟨0, 560⟩, vel := ⟨0, 0⟩, size := ⟨800, 40⟩,
    color := "#334155", hp := 1, maxHp := 1, markedForDeletion := false, direction := 1 }

/-- A grounded runner standing where the player lands. -/
def landingSpotRunner : Entity :=
  { type := .enemy, subtype := some .runner, pos := ⟨90, 528⟩, vel := ⟨0, 0⟩,
    size := ⟨32, 32⟩, color := "#22c55e", hp := 3, maxHp := 3,
    markedForDeletion := false, direction := -1, attackTimer := some 0 }

/-- The C8 counterexample world: the player lands on the floor this tick and the
landing spot is occupied by a live runner. -/
def cw8 : World :=
  { frameCount := 0, bossActive := false, score := 0, player := fallingPlayer,
    entities := [landingSpotRunner], platforms := [floorPlat], canvasW := 800,
    canvasH := 600, input := noInput, rngIx := 0, gameOver := false }

/-- C8 counterexample: on a tick in which the player satisfies the landing condition
against the floor, but also overlaps a live enemy, the end-of-tick state keeps the
grounded flag and the exact snap (pos.y + height = platform top) — yet the vertical
velocity is the knockback's -5, not 0 as the claim demands. -/
theorem c8_knockback_breaks_landing :
    landingCond { playerPhysics noInput 800 600 fallingPlayer with isGrounded := false }
      floorPlat = true ∧
    isColliding (tick oracle0 cw8).player landingSpotRunner = true ∧
    (tick oracle0 cw8).player.isGrounded = true ∧
    qadd (tick oracle0 cw8).player.pos.y (tick oracle0 cw8).player.size.height =
      floorPlat.pos.y ∧
    (tick oracle0 cw8).player.vel.y = -5 := by decide

/-- C8 (amended): when the landing condition holds, the platform-resolution step
grounds the entity, zeroes its vertical velocity and snaps its feet exactly onto the
platform top; the collision phase never changes the player's position or grounded flag
(so the snap survives to the end of the tick), and it preserves the player's velocity
— vel.y = 0 included — exactly on ticks in which no entity overlaps the player.  On a
tick with a damaging overlap the knockback overwrites the velocity (vel.y = -5), which
is the only deviation from the claim. -/
theorem c8_landing_invariant :
    (∀ e p : Entity, landingCond e p = true →
      (resolvePlatform e p).isGrounded = true ∧ (resolvePlatform e p).vel.y = 0 ∧
      (resolvePlatform e p).pos.y + (resolvePlatform e p).size.height = p.pos.y) ∧
    (∀ (o : Oracle) (s : CState),
      (collisionPhase o s).player.pos = s.player.pos ∧
      (collisionPhase o s).player.isGrounded = s.player.isGrounded) ∧
    (∀ (o : Oracle) (s : CState),
      (∀ e ∈ s.entities, isColliding s.player e = false) →
      (collisionPhase o s).player.vel = s.player.vel) := by
  refine ⟨fun e p hl => ?_, fun o s => ⟨(collisionPhase_player_base o s).1,
    (collisionPhase_player_base o s).2.2⟩, collisionPhase_player_vel⟩
  unfold resolvePlatform
  rw [if_pos hl]
  refine ⟨rfl, rfl, ?_⟩
  dsimp only
  rw [qsub_eq]
  ring

/-- C8 witness: the landing conclusions on the concrete falling player and floor, and
the collision phase leaving a non-overlapped player's state alone. -/
theorem c8_landing_invariant_witness :
    ((resolvePlatform { playerPhysics noInput 800 600 fallingPlayer with
        isGrounded := false } floorPlat).isGrounded = true ∧
      (resolvePlatform { playerPhysics noInput 800 600 fallingPlayer with
        isGrounded := false } floorPlat).vel.y = 0 ∧
      (resolvePlatform { playerPhysics noInput 800 600 fallingPlayer with
        isGrounded := false } floorPlat).pos.y +
        (resolvePlatform { playerPhysics noInput 800 600 fallingPlayer with
          isGrounded := false } floorPlat).size.height = floorPlat.pos.y) ∧
    (collisionPhase oracle0 ⟨farPlayer, [landingSpotRunner], 0, false, [], 0⟩).player.vel =
      farPlayer.vel := by
  refine ⟨c8_landing_invariant.1 _ floorPlat (by decide), ?_⟩
  exact c8_landing_invariant.2.2 oracle0 ⟨farPlayer, [landingSpotRunner], 0, false, [], 0⟩
    (by decide)

end GunGame
